import Mathlib

/-!
# xDS management server: fetch engine and stream engine

A shallow embedding of `pkg/cache/fetch.go`, `pkg/cache2/fetch.go`,
`pkg/server/server.go`, `pkg/server/server2.go` and `pkg/server/load.go`.

Go strings are Lean strings, `uint64` versions are natural numbers (the code only
compares and prints them), a Go result pair `(value, error)` with exactly one
non-nil component is an `Except`.  Functions, constants and methods that the code
calls but that are declared elsewhere (`MarshalResource`, `Retrieve`, `All`,
`MakeCluster`, the type URL constants, the stream and the callbacks) are
parameters of the definitions.
-/

namespace Xds

/-! ## Protobuf messages -/

/-- Serialized protobuf bytes (`[]byte`). -/
abbrev Bytes := List Nat

/-- The message `any.Any`: a type URL and the serialized value. -/
structure Any where
  TypeUrl : String
  Value : Bytes
deriving DecidableEq

/-- The message `corepb.Node`; only its identity is used. -/
structure Node where
  Id : String
deriving DecidableEq

/-- The fields of `discoverypb.DiscoveryRequest` the server reads.
`Node = none` is the nil pointer. -/
structure DiscoveryRequest where
  VersionInfo : String
  Node : Option Node
  ResourceNames : List String
  TypeUrl : String
  ResponseNonce : String
deriving DecidableEq

/-- The message `discoverypb.DiscoveryResponse`. A field left out of a Go
composite literal is the empty string. -/
structure DiscoveryResponse where
  VersionInfo : String
  Resources : List Any
  TypeUrl : String
  Nonce : String
deriving DecidableEq

/-- The message `endpointpb.ClusterLoadAssignment`: the cluster name and its
other fields, kept as uninterpreted payloads. -/
structure ClusterLoadAssignment where
  ClusterName : String
  Endpoints : List Bytes
  NamedEndpoints : List (String × Bytes)
  Policy : Option Bytes
deriving DecidableEq

namespace clusterpb

/-- The message `clusterpb.Cluster`: its name and its load assignment
(`none` is the nil pointer). -/
structure Cluster where
  Name : String
  LoadAssignment : Option ClusterLoadAssignment
deriving DecidableEq

end clusterpb

/-- A `proto.Message` handed to `MarshalResource`. -/
inductive Resource where
  | cluster (c : clusterpb.Cluster)
  | endpoints (e : ClusterLoadAssignment)
deriving DecidableEq

/-- The type URL constants (`resource.EndpointType`, `cache.ClusterType`, ...),
declared outside the files embedded here. -/
structure TypeURLs where
  EndpointType : String
  EndpointType3 : String
  ClusterType : String
  ClusterType3 : String
  ListenerType : String
  RouteConfigType : String
  AnyType : String

/-- The ways a `Fetch` call ends without a response. -/
inductive FetchError where
  /-- Value of `fmt.Errorf("cluster %q not found", n)`. -/
  | notFound (n : String)
  /-- The error returned by `MarshalResource`. -/
  | marshal (e : String)
  /-- Value of `fmt.Errorf("unrecognized/unsupported type %q:", req.TypeUrl)`. -/
  | unsupported (t : String)
  /-- The sentinel `SkipFetchError{}` of package cache2. -/
  | SkipFetchError
  /-- A run-time panic: dereference of a nil pointer. -/
  | nilDereference
deriving DecidableEq

-- Equality of Go result pairs is decidable.
deriving instance DecidableEq for Except

/-! ## Library functions -/

/-- `strconv.FormatUint(v, 10)`: the decimal rendering of an unsigned integer. -/
def FormatUint (v : Nat) : String := Nat.repr v

/-- `strconv.FormatInt(v, 10)`: the decimal rendering of a signed integer. -/
def FormatInt (v : Int) : String := Int.repr v

/-- The order `sort.Strings` sorts by, decided on the character lists. Go compares
strings byte by byte; on valid UTF-8, which protobuf strings are, that is the
order of the code points. -/
def stringLE (a b : String) : Prop := a.toList ≤ b.toList

instance : DecidableRel stringLE := fun a b =>
  inferInstanceAs (Decidable (a.toList ≤ b.toList))

/-- `sort.Strings`: the names in increasing order. -/
def sortStrings (names : List String) : List String :=
  List.insertionSort stringLE names

/-! ## pkg/cache -/

namespace cache

/-- The receiver `*Cluster` of package cache, seen through the two methods
`Fetch` calls: `All()` and `Retrieve(name)`, which returns the stored cluster
(`none` when there is none) and its version. -/
structure Cluster where
  All : List String
  Retrieve : String → Option clusterpb.Cluster × Nat

/-- The loop of the endpoint branch of `Fetch` (fetch.go lines 28-48), from the
current `version` and `resources`. -/
def endpointLoop (MarshalResource : Resource → Except String Bytes) (c : Cluster)
    (typeUrl : String) : List String → Nat → List Any → Except FetchError (Nat × List Any)
  | [], version, resources => .ok (version, resources)
  | n :: rest, version, resources =>
    match c.Retrieve n with
    | (none, _) => .error (.notFound n)
    | (some cluster, v) =>
      let version := if v > version then v else version
      match cluster.LoadAssignment with
      | none => .error .nilDereference
      | some la =>
        let endpoints : ClusterLoadAssignment :=
          if la.ClusterName ≠ n then { la with ClusterName := n } else la
        match MarshalResource (.endpoints endpoints) with
        | .error err => .error (.marshal err)
        | .ok data =>
          endpointLoop MarshalResource c typeUrl rest version
            (resources ++ [{ TypeUrl := typeUrl, Value := data }])

/-- The loop of the cluster branch of `Fetch` (fetch.go lines 58-73). -/
def clusterLoop (MarshalResource : Resource → Except String Bytes) (c : Cluster)
    (typeUrl : String) : List String → Nat → List Any → Except FetchError (Nat × List Any)
  | [], version, resources => .ok (version, resources)
  | n :: rest, version, resources =>
    match c.Retrieve n with
    | (none, _) => .error (.notFound n)
    | (some cluster, v) =>
      let version := if v > version then v else version
      match MarshalResource (.cluster cluster) with
      | .error err => .error (.marshal err)
      | .ok data =>
        clusterLoop MarshalResource c typeUrl rest version
          (resources ++ [{ TypeUrl := typeUrl, Value := data }])

/-- `func (c *Cluster) Fetch(req)` of package cache. -/
def Fetch (K : TypeURLs) (MarshalResource : Resource → Except String Bytes) (c : Cluster)
    (req : DiscoveryRequest) : Except FetchError DiscoveryResponse :=
  if req.TypeUrl = K.EndpointType ∨ req.TypeUrl = K.EndpointType3 then
    let names := sortStrings req.ResourceNames
    let clusters := if names.length = 0 then c.All else names
    match endpointLoop MarshalResource c req.TypeUrl clusters 0 [] with
    | .error err => .error err
    | .ok (version, resources) =>
      let versionInfo := FormatUint version
      .ok { VersionInfo := versionInfo, Resources := resources, TypeUrl := req.TypeUrl,
            Nonce := "" }
  else if req.TypeUrl = K.ClusterType ∨ req.TypeUrl = K.ClusterType3 then
    let names := sortStrings req.ResourceNames
    let clusters := if names.length = 0 then c.All else names
    match clusterLoop MarshalResource c req.TypeUrl clusters 0 [] with
    | .error err => .error err
    | .ok (version, resources) =>
      let versionInfo := FormatUint version
      .ok { VersionInfo := versionInfo, Resources := resources, TypeUrl := req.TypeUrl,
            Nonce := "" }
  else
    .error (.unsupported req.TypeUrl)

end cache

/-! ## pkg/cache2 -/

namespace cache2

/-- The receiver `*Cluster` of package cache2, which stores load assignments:
`All()` and `Retrieve(name)`, which returns the stored load assignment (`none`
when there is none) and its version. -/
structure Cluster where
  All : List String
  Retrieve : String → Option ClusterLoadAssignment × Nat

/-- The nil-safe getter `(*ClusterLoadAssignment).GetClusterName`. -/
def GetClusterName : Option ClusterLoadAssignment → String
  | none => ""
  | some cla => cla.ClusterName

/-- The loop of the cluster branch of `Fetch` (fetch.go lines 29-41). -/
def clusterLoop (MakeCluster : String → clusterpb.Cluster)
    (MarshalResource : Resource → Except String Bytes) (K : TypeURLs) (c : Cluster) :
    List String → Nat → List Any → Except FetchError (Nat × List Any)
  | [], version, resources => .ok (version, resources)
  | n :: rest, version, resources =>
    let (cla, v) := c.Retrieve n
    let version := if v > version then v else version
    let cluster := MakeCluster (GetClusterName cla)
    match MarshalResource (.cluster cluster) with
    | .error err => .error (.marshal err)
    | .ok data =>
      clusterLoop MakeCluster MarshalResource K c rest version
        (resources ++ [{ TypeUrl := K.ClusterType, Value := data }])

/-- `func (c *Cluster) Fetch(req)` of package cache2. The `EndpointType` case of
the switch has an empty body, so control reaches the final `return`. -/
def Fetch (K : TypeURLs) (MakeCluster : String → clusterpb.Cluster)
    (MarshalResource : Resource → Except String Bytes) (c : Cluster)
    (req : DiscoveryRequest) : Except FetchError DiscoveryResponse :=
  if req.TypeUrl = K.EndpointType then
    .error (.unsupported req.TypeUrl)
  else if req.TypeUrl = K.ClusterType then
    let names := sortStrings req.ResourceNames
    let clusters := if names.length = 0 then c.All else names
    match clusterLoop MakeCluster MarshalResource K c clusters 0 [] with
    | .error err => .error err
    | .ok (version, resources) =>
      let versionInfo := FormatUint version
      if versionInfo = req.VersionInfo then
        .error .SkipFetchError
      else
        .ok { VersionInfo := versionInfo, Resources := resources, TypeUrl := K.ClusterType,
              Nonce := "" }
  else
    .error (.unsupported req.TypeUrl)

end cache2

/-! ## pkg/server: the v3 stream engine (server.go) -/

namespace server

/-- The result of an `int64` operation whose mathematical value is `x`: Go
integers wrap around. -/
def wrapInt64 (x : Int) : Int := (x + 2 ^ 63) % 2 ^ 64 - 2 ^ 63

/-- The errors a stream handler returns. -/
inductive Err where
  /-- Value of `errors.New("missing response")`. -/
  | missingResponse
  /-- The error returned by `MarshalResource`. -/
  | marshal (e : String)
  /-- Value of `status.Errorf(codes.Unavailable, msg)`. -/
  | unavailable (msg : String)
  /-- Value of `status.Errorf(codes.InvalidArgument, msg)`. -/
  | invalidArgument (msg : String)
  /-- The error returned by a callback. -/
  | callback (e : String)
  /-- The error returned by `stream.Send`. -/
  | transport (e : String)
  /-- The error returned by the cache's `Fetch`. -/
  | fetch (e : FetchError)
deriving DecidableEq

/-- The struct `cache.Response` a watch delivers. -/
structure Response where
  Request : DiscoveryRequest
  Version : String
  ResourceMarshaled : Bool
  Resources : List Resource
  MarshaledResources : List Bytes
deriving DecidableEq

/-- The loop of `createResponse` when the resources are not yet marshaled: the
first marshalling error is returned. -/
def marshalResources (MarshalResource : Resource → Except String Bytes) (typeURL : String) :
    List Resource → Except Err (List Any)
  | [] => .ok []
  | r :: rest =>
    match MarshalResource r with
    | .error err => .error (.marshal err)
    | .ok marshaledResource =>
      match marshalResources MarshalResource typeURL rest with
      | .error err => .error err
      | .ok resources => .ok ({ TypeUrl := typeURL, Value := marshaledResource } :: resources)

/-- `func createResponse(resp *cache.Response, typeURL string)`; `none` is the
nil pointer. -/
def createResponse (MarshalResource : Resource → Except String Bytes)
    (resp : Option Response) (typeURL : String) : Except Err DiscoveryResponse :=
  match resp with
  | none => .error .missingResponse
  | some resp =>
    if resp.ResourceMarshaled then
      .ok { VersionInfo := resp.Version,
            Resources := resp.MarshaledResources.map
              (fun value => { TypeUrl := typeURL, Value := value }),
            TypeUrl := typeURL, Nonce := "" }
    else
      match marshalResources MarshalResource typeURL resp.Resources with
      | .error err => .error err
      | .ok resources =>
        .ok { VersionInfo := resp.Version, Resources := resources, TypeUrl := typeURL,
              Nonce := "" }

/-- The struct `watches`: per type the delivery channel, the cancel handle
(`none` is nil) and the nonce of the last response. Channels and handles are
named by numbers. -/
structure watches where
  endpoints : Option Nat
  clusters : Option Nat
  endpointCancel : Option Nat
  clusterCancel : Option Nat
  endpointNonce : String
  clusterNonce : String
deriving DecidableEq

/-- What a stream handler does to the outside: the calls it makes, in order. -/
inductive Effect where
  | OnStreamOpen (streamID : Int) (typeURL : String)
  | OnStreamClosed (streamID : Int)
  | OnStreamRequest (streamID : Int) (req : DiscoveryRequest)
  | OnStreamResponse (streamID : Int) (req : DiscoveryRequest) (resp : DiscoveryResponse)
  | Send (resp : DiscoveryResponse)
  | CreateWatch (req : DiscoveryRequest)
  | cancel (handle : Nat)
deriving DecidableEq

/-- `func (values watches) Cancel()`: the handles invoked. -/
def watches.Cancel (values : watches) : List Effect :=
  (match values.endpointCancel with
   | some handle => [Effect.cancel handle]
   | none => []) ++
  (match values.clusterCancel with
   | some handle => [Effect.cancel handle]
   | none => [])

/-- The struct `server` as `process` uses it: the type URL constants, the
marshaller, whether `callbacks` is non-nil, the stream ID that
`atomic.AddInt64(&s.streamCount, 1)` returns and the result of `OnStreamOpen`. -/
structure Server where
  K : TypeURLs
  MarshalResource : Resource → Except String Bytes
  callbacks : Bool
  streamID : Int
  openErr : Option String

/-- The local variables of `process`. -/
structure State where
  streamNonce : Int
  values : watches
  node : Node
deriving DecidableEq

/-- The cases of the `select` of `process`, each with the results of the calls
to the outside made while it is handled. A receive carries `none` when the
channel is closed (`more` is false). -/
inductive Event where
  /-- Case `<-s.ctx.Done()`. -/
  | ctxDone
  /-- Case `<-values.endpoints`; `sendErr` is the result of `stream.Send`. -/
  | endpoints (msg : Option Response) (sendErr : Option String)
  /-- Case `<-values.clusters`; `sendErr` is the result of `stream.Send`. -/
  | clusters (msg : Option Response) (sendErr : Option String)
  /-- Case `<-reqCh`, with the request (`none` is nil); `hookErr` is the result of
  `OnStreamRequest`, `watch` the channel and cancel handle `CreateWatch` returns. -/
  | request (msg : Option (Option DiscoveryRequest)) (hookErr : Option String)
      (watch : Option Nat × Option Nat)

/-- One pass through the `select`: the loop goes on, or the function returns. -/
inductive Step where
  | next (st : State) (effects : List Effect)
  | done (err : Option Err) (effects : List Effect)

/-- The closure `send` of `process`: the nonce and error it returns, the new
state and the calls made. -/
def send (s : Server) (st : State) (resp : Response) (typeURL : String)
    (sendErr : Option String) : String × Option Err × State × List Effect :=
  match createResponse s.MarshalResource (some resp) typeURL with
  | .error err => ("", some err, st, [])
  | .ok out =>
    let streamNonce := wrapInt64 (st.streamNonce + 1)
    let out := { out with Nonce := FormatInt streamNonce }
    (out.Nonce, sendErr.map Err.transport, { st with streamNonce := streamNonce },
      (if s.callbacks then [Effect.OnStreamResponse s.streamID resp.Request out] else [])
        ++ [Effect.Send out])

/-- Lines 246-264 of `process`: the request hook and the switch that creates
a watch. -/
def handleRequest (s : Server) (st : State) (req : DiscoveryRequest) (nonce : String)
    (hookErr : Option String) (watch : Option Nat × Option Nat) : Step :=
  let hook := if s.callbacks then [Effect.OnStreamRequest s.streamID req] else []
  if s.callbacks ∧ hookErr.isSome then
    .done (hookErr.map Err.callback) hook
  else if req.TypeUrl = s.K.EndpointType ∧
      (st.values.endpointNonce = "" ∨ st.values.endpointNonce = nonce) then
    .next { st with values := { st.values with endpoints := watch.1, endpointCancel := watch.2 } }
      (hook ++ (match st.values.endpointCancel with
                | some handle => [Effect.cancel handle]
                | none => []) ++ [Effect.CreateWatch req])
  else if req.TypeUrl = s.K.ClusterType ∧
      (st.values.clusterNonce = "" ∨ st.values.clusterNonce = nonce) then
    .next { st with values := { st.values with clusters := watch.1, clusterCancel := watch.2 } }
      (hook ++ (match st.values.clusterCancel with
                | some handle => [Effect.cancel handle]
                | none => []) ++ [Effect.CreateWatch req])
  else
    .next st hook

/-- The body of the `for` loop of `process` for one case of the `select`. A
receive from a nil channel never completes: the state is unchanged. -/
def processStep (s : Server) (defaultTypeURL : String) (st : State) : Event → Step
  | .ctxDone => .done none []
  | .endpoints msg sendErr =>
    match st.values.endpoints with
    | none => .next st []
    | some _ =>
      match msg with
      | none => .done (some (.unavailable "endpoints watch failed")) []
      | some resp =>
        match send s st resp s.K.EndpointType sendErr with
        | (_, some err, _, effects) => .done (some err) effects
        | (nonce, none, st, effects) =>
          .next { st with values := { st.values with endpointNonce := nonce } } effects
  | .clusters msg sendErr =>
    match st.values.clusters with
    | none => .next st []
    | some _ =>
      match msg with
      | none => .done (some (.unavailable "clusters watch failed")) []
      | some resp =>
        match send s st resp s.K.ClusterType sendErr with
        | (_, some err, _, effects) => .done (some err) effects
        | (nonce, none, st, effects) =>
          .next { st with values := { st.values with clusterNonce := nonce } } effects
  | .request msg hookErr watch =>
    match msg with
    | none => .done none []
    | some none => .done (some (.unavailable "empty request")) []
    | some (some req) =>
      let node := match req.Node with
        | some n => n
        | none => st.node
      let req := { req with Node := some node }
      let st := { st with node := node }
      let nonce := req.ResponseNonce
      if defaultTypeURL = s.K.AnyType then
        if req.TypeUrl = "" then
          .done (some (.invalidArgument "type URL is required for ADS")) []
        else
          handleRequest s st req nonce hookErr watch
      else if req.TypeUrl = "" then
        handleRequest s st { req with TypeUrl := defaultTypeURL } nonce hookErr watch
      else
        handleRequest s st req nonce hookErr watch

/-- The outcome of a handler on a sequence of events: the calls made, and the
value returned (`none` while the handler waits in its `select`). -/
structure Outcome where
  trace : List Effect
  returned : Option (Option Err)
deriving DecidableEq

/-- The deferred function of `process`: cancel all watches, then the close hook. -/
def deferred (s : Server) (values : watches) : List Effect :=
  values.Cancel ++ (if s.callbacks then [Effect.OnStreamClosed s.streamID] else [])

/-- The `for` loop of `process` on the events that occur, from the state `st`
and the calls made so far. -/
def processLoop (s : Server) (defaultTypeURL : String) :
    List Event → State → List Effect → Outcome
  | [], _, trace => { trace := trace, returned := none }
  | ev :: rest, st, trace =>
    match processStep s defaultTypeURL st ev with
    | .next st effects => processLoop s defaultTypeURL rest st (trace ++ effects)
    | .done err effects =>
      { trace := trace ++ effects ++ deferred s st.values, returned := some err }

/-- The variables of `process` before the loop. -/
def initialState : State :=
  { streamNonce := 0,
    values := { endpoints := none, clusters := none, endpointCancel := none,
                clusterCancel := none, endpointNonce := "", clusterNonce := "" },
    node := { Id := "" } }

/-- `func (s *server) process(stream, reqCh, defaultTypeURL)` on the events
that occur while it runs. -/
def process (s : Server) (defaultTypeURL : String) (events : List Event) : Outcome :=
  let hook := if s.callbacks then [Effect.OnStreamOpen s.streamID defaultTypeURL] else []
  if s.callbacks ∧ s.openErr.isSome then
    { trace := hook ++ deferred s initialState.values,
      returned := some (s.openErr.map Err.callback) }
  else
    processLoop s defaultTypeURL events initialState hook

/-- The responses handed to `stream.Send`, in order. -/
def sent : List Effect → List DiscoveryResponse
  | [] => []
  | .Send resp :: rest => resp :: sent rest
  | _ :: rest => sent rest

end server

/-! ## pkg/server: the v2 stream engine (server2.go) -/

namespace xdspb2

/-- The fields of the v2 message `xdspb2.DiscoveryRequest` the server reads. -/
structure DiscoveryRequest where
  VersionInfo : String
  Node : Option Node
  ResourceNames : List String
  TypeUrl : String
  ResponseNonce : String
deriving DecidableEq

/-- The v2 message `xdspb2.DiscoveryResponse`. -/
structure DiscoveryResponse where
  VersionInfo : String
  Resources : List Any
  TypeUrl : String
  Nonce : String
deriving DecidableEq

end xdspb2

namespace server2

/-- The struct `server2` as `discoveryProcess` uses it: the type URL constants
and the two translations between the wire versions. -/
structure Server2 where
  K : TypeURLs
  DiscoveryRequestToV3 : xdspb2.DiscoveryRequest → DiscoveryRequest
  DiscoveryResponseToV2 : DiscoveryResponse → xdspb2.DiscoveryResponse

/-- The local variables of `discoveryProcess`; a key that is not in the map
`versionInfo` reads as the empty string. -/
structure State where
  streamNonce : Int
  node : Node
  versionInfo : String → String

/-- The calls `discoveryProcess` makes to the outside. -/
inductive Effect where
  | Fetch (req : DiscoveryRequest)
  | Send (resp : xdspb2.DiscoveryResponse)
deriving DecidableEq

/-- The cases of the `select` of `discoveryProcess`, each with the behaviour
of the cache's `Fetch` and of `stream.Send` while it is handled. -/
inductive Event where
  /-- Case `<-s.s.ctx.Done()`. -/
  | ctxDone
  /-- Case `<-reqCh`; `none` is the closed channel, `some none` the nil request. -/
  | request (msg : Option (Option xdspb2.DiscoveryRequest))
      (Fetch : DiscoveryRequest → Except FetchError DiscoveryResponse)
      (Send : xdspb2.DiscoveryResponse → Option String)
  /-- Case `<-tick.C`. -/
  | tick (Fetch : DiscoveryRequest → Except FetchError DiscoveryResponse)
      (Send : xdspb2.DiscoveryResponse → Option String)

/-- One pass through the `select`, or a part of it: the loop goes on, or the
function returns. -/
inductive Step where
  | next (st : State) (effects : List Effect)
  | done (err : Option server.Err) (effects : List Effect)

/-- The closure `send` of `discoveryProcess`: the error it returns, the new
state and the call made. -/
def send (st : State) (resp : xdspb2.DiscoveryResponse)
    (Send : xdspb2.DiscoveryResponse → Option String) :
    Option server.Err × State × List Effect :=
  let streamNonce := server.wrapInt64 (st.streamNonce + 1)
  let resp := { resp with Nonce := FormatInt streamNonce }
  ((Send resp).map server.Err.transport, { st with streamNonce := streamNonce },
    [Effect.Send resp])

/-- The assignment `versionInfo[key] = value`. -/
def setVersion (st : State) (key value : String) : State :=
  { st with versionInfo := fun k => if k = key then value else st.versionInfo k }

/-- Lines 102-118: fetch for an inbound request and send the answer unless its
version is the one recorded for the type. -/
def fetchAndSend (s : Server2) (st : State) (req : xdspb2.DiscoveryRequest)
    (Fetch : DiscoveryRequest → Except FetchError DiscoveryResponse)
    (Send : xdspb2.DiscoveryResponse → Option String) : Step :=
  let req2 := s.DiscoveryRequestToV3 req
  match Fetch req2 with
  | .error err => .done (some (.fetch err)) [Effect.Fetch req2]
  | .ok resp =>
    let resp2 := s.DiscoveryResponseToV2 resp
    if resp.VersionInfo = st.versionInfo req.TypeUrl then
      .next st [Effect.Fetch req2]
    else
      match send st resp2 Send with
      | (some err, _, effects) => .done (some err) (Effect.Fetch req2 :: effects)
      | (none, st, effects) =>
        .next (setVersion st req.TypeUrl resp.VersionInfo) (Effect.Fetch req2 :: effects)

/-- One of the four blocks of the tick case (CDS, EDS, LDS, RDS): fetch the type
with the recorded version and send the answer. -/
def tickRound (s : Server2) (typeUrl : String)
    (Fetch : DiscoveryRequest → Except FetchError DiscoveryResponse)
    (Send : xdspb2.DiscoveryResponse → Option String) (st : State) : Step :=
  let req : DiscoveryRequest :=
    { VersionInfo := st.versionInfo typeUrl, Node := none, ResourceNames := [],
      TypeUrl := typeUrl, ResponseNonce := "" }
  match Fetch req with
  | .error err => .done (some (.fetch err)) [Effect.Fetch req]
  | .ok resp =>
    let resp2 := s.DiscoveryResponseToV2 resp
    match send st resp2 Send with
    | (some err, _, effects) => .done (some err) (Effect.Fetch req :: effects)
    | (none, st, effects) =>
      .next (setVersion st req.TypeUrl resp.VersionInfo) (Effect.Fetch req :: effects)

/-- Sequencing of two parts of a loop body: the second runs when the first did
not return. -/
def Step.andThen (first : Step) (second : State → Step) : Step :=
  match first with
  | .done err effects => .done err effects
  | .next st effects =>
    match second st with
    | .done err effects2 => .done err (effects ++ effects2)
    | .next st effects2 => .next st (effects ++ effects2)

/-- The body of the `for` loop of `discoveryProcess` for one case of the
`select`. -/
def discoveryStep (s : Server2) (defaultTypeURL : String) (st : State) : Event → Step
  | .ctxDone => .done none []
  | .request msg Fetch Send =>
    match msg with
    | none => .done none []
    | some none => .done (some (.unavailable "empty request")) []
    | some (some req) =>
      let node := match req.Node with
        | some n => n
        | none => st.node
      let req := { req with Node := some node }
      let st := { st with node := node }
      if defaultTypeURL = s.K.AnyType then
        if req.TypeUrl = "" then
          .done (some (.invalidArgument "type URL is required for ADS")) []
        else
          fetchAndSend s st req Fetch Send
      else if req.TypeUrl = "" then
        fetchAndSend s st { req with TypeUrl := defaultTypeURL } Fetch Send
      else
        fetchAndSend s st req Fetch Send
  | .tick Fetch Send =>
    (((tickRound s s.K.ClusterType Fetch Send st).andThen
      (tickRound s s.K.EndpointType Fetch Send)).andThen
      (tickRound s s.K.ListenerType Fetch Send)).andThen
      (tickRound s s.K.RouteConfigType Fetch Send)

/-- The outcome of `discoveryProcess` on a sequence of events: the calls made,
and the value returned (`none` while it waits in its `select`). -/
structure Outcome where
  trace : List Effect
  returned : Option (Option server.Err)
deriving DecidableEq

/-- The `for` loop of `discoveryProcess` on the events that occur, from the
state `st` and the calls made so far. -/
def discoveryLoop (s : Server2) (defaultTypeURL : String) :
    List Event → State → List Effect → Outcome
  | [], _, trace => { trace := trace, returned := none }
  | ev :: rest, st, trace =>
    match discoveryStep s defaultTypeURL st ev with
    | .next st effects => discoveryLoop s defaultTypeURL rest st (trace ++ effects)
    | .done err effects => { trace := trace ++ effects, returned := some err }

/-- The variables of `discoveryProcess` before the loop. -/
def initialState : State :=
  { streamNonce := 0, node := { Id := "" }, versionInfo := fun _ => "" }

/-- `func (s *server2) discoveryProcess(stream, reqCh, defaultTypeURL)` on the
events that occur while it runs. -/
def discoveryProcess (s : Server2) (defaultTypeURL : String) (events : List Event) : Outcome :=
  discoveryLoop s defaultTypeURL events initialState []

/-- The responses handed to `stream.Send`, in order. -/
def sent : List Effect → List xdspb2.DiscoveryResponse
  | [] => []
  | .Send resp :: rest => resp :: sent rest
  | _ :: rest => sent rest

/-- `func (s *server2) discoveryHandler(stream, typeURL)`: the goroutine that
reads the stream feeds the request events; the result is that of
`discoveryProcess` with the same default type. -/
def discoveryHandler (s : Server2) (typeURL : String) (events : List Event) : Outcome :=
  discoveryProcess s typeURL events

/-- `func (s *server2) StreamAggregatedResources(stream)`. -/
def StreamAggregatedResources (s : Server2) (events : List Event) : Outcome :=
  discoveryHandler s s.K.AnyType events

/-- `func (s *server2) StreamEndpoints(stream)`. -/
def StreamEndpoints (s : Server2) (events : List Event) : Outcome :=
  discoveryHandler s s.K.EndpointType events

/-- `func (s *server2) StreamClusters(stream)`. -/
def StreamClusters (s : Server2) (events : List Event) : Outcome :=
  discoveryHandler s s.K.ClusterType events

/-- `func (s *server2) StreamListeners(stream)` (server2.go lines 252-254). -/
def StreamListeners (s : Server2) (events : List Event) : Outcome :=
  discoveryHandler s s.K.ClusterType events

end server2

/-! ## pkg/server: the load stats stream (load.go) -/

namespace loadpb

/-- The message `loadpb.LoadStatsResponse`, which `loadStream.Recv` returns. -/
structure LoadStatsResponse where
  Clusters : List String
  LoadReportingInterval : Nat
  ReportEndpointGranularity : Bool
deriving DecidableEq

/-- The message `loadpb.LoadStatsRequest`, which `loadStream.Send` takes. -/
structure LoadStatsRequest where
  Node : Option Node
  ClusterStats : List Bytes
deriving DecidableEq

end loadpb

namespace load

/-- The errors `loadProcess` returns. -/
inductive Err where
  /-- Value of `status.Errorf(codes.Unavailable, msg)`. -/
  | unavailable (msg : String)
  /-- The error returned by the cache's `SetLoad`. -/
  | setLoad (e : String)
  /-- The error returned by `stream.Send`. -/
  | transport (e : String)
deriving DecidableEq

/-- The calls `loadProcess` makes to the outside. -/
inductive Effect where
  | SetLoad (req : loadpb.LoadStatsResponse)
  | Send (resp : loadpb.LoadStatsRequest)
deriving DecidableEq

/-- The cases of the `select` of `loadProcess`. A receive carries `none` when the
channel is closed and `some none` for a nil report; `SetLoad` is the behaviour of
the cache and `sendErr` the result of `stream.Send` while the case is handled. -/
inductive Event where
  /-- Case `<-s.ctx.Done()`. -/
  | ctxDone
  /-- Case `<-reqCh`. -/
  | report (msg : Option (Option loadpb.LoadStatsResponse))
      (SetLoad : loadpb.LoadStatsResponse → Except String loadpb.LoadStatsRequest)
      (sendErr : Option String)

/-- One pass through the `select`: the loop goes on, or the function returns. -/
inductive Step where
  | next (effects : List Effect)
  | done (err : Option Err) (effects : List Effect)

/-- The body of the `for` loop of `loadProcess` for one case of the `select`
(load.go lines 31-47). -/
def loadStep : Event → Step
  | .ctxDone => .done none []
  | .report msg SetLoad sendErr =>
    match msg with
    | none => .done none []
    | some none => .done (some (.unavailable "empty request")) []
    | some (some req) =>
      match SetLoad req with
      | .error err => .done (some (.setLoad err)) [Effect.SetLoad req]
      | .ok resp => .done (sendErr.map Err.transport) [Effect.SetLoad req, Effect.Send resp]

/-- The outcome of `loadProcess` on a sequence of events: the calls made, and
the value returned (`none` while it waits in its `select`). -/
structure Outcome where
  trace : List Effect
  returned : Option (Option Err)
deriving DecidableEq

/-- The `for` loop of `loadProcess` on the events that occur, from the calls
made so far. -/
def loadLoop : List Event → List Effect → Outcome
  | [], trace => { trace := trace, returned := none }
  | ev :: rest, trace =>
    match loadStep ev with
    | .next effects => loadLoop rest (trace ++ effects)
    | .done err effects => { trace := trace ++ effects, returned := some err }

/-- `func (s *server) loadProcess(stream, reqCh)` on the events that occur
while it runs. -/
def loadProcess (events : List Event) : Outcome :=
  loadLoop events []

/-- The reports handed to the cache's `SetLoad`, in order. -/
def reported : List Effect → List loadpb.LoadStatsResponse
  | [] => []
  | .SetLoad req :: rest => req :: reported rest
  | _ :: rest => reported rest

end load

/-! ## Vocabulary of the properties -/

/-- The names a `Fetch` looks up: the request's names sorted, or `All()` when the
request names none. -/
def lookedUp (all : List String) (req : DiscoveryRequest) : List String :=
  if (sortStrings req.ResourceNames).length = 0 then all else sortStrings req.ResourceNames

/-- The maximum of a list of versions, `0` for the empty list. -/
def maxVersion (versions : List Nat) : Nat := versions.foldr max 0

/-- The shape the three loops share: `item n` is what one iteration computes
for the name `n`, the version and the bytes, or the error it returns. -/
def fetchLoop (typeUrl : String) (item : String → Except FetchError (Nat × Bytes)) :
    List String → Nat → List Any → Except FetchError (Nat × List Any)
  | [], version, resources => .ok (version, resources)
  | n :: rest, version, resources =>
    match item n with
    | .error err => .error err
    | .ok (v, data) =>
      fetchLoop typeUrl item rest (if v > version then v else version)
        (resources ++ [{ TypeUrl := typeUrl, Value := data }])

/-- One iteration of the endpoint loop of package cache. -/
def cache.endpointItem (MarshalResource : Resource → Except String Bytes) (c : cache.Cluster)
    (n : String) : Except FetchError (Nat × Bytes) :=
  match c.Retrieve n with
  | (none, _) => .error (.notFound n)
  | (some cluster, v) =>
    match cluster.LoadAssignment with
    | none => .error .nilDereference
    | some la =>
      match MarshalResource
        (.endpoints (if la.ClusterName ≠ n then { la with ClusterName := n } else la)) with
      | .error err => .error (.marshal err)
      | .ok data => .ok (v, data)

/-- One iteration of the cluster loop of package cache. -/
def cache.clusterItem (MarshalResource : Resource → Except String Bytes) (c : cache.Cluster)
    (n : String) : Except FetchError (Nat × Bytes) :=
  match c.Retrieve n with
  | (none, _) => .error (.notFound n)
  | (some cluster, v) =>
    match MarshalResource (.cluster cluster) with
    | .error err => .error (.marshal err)
    | .ok data => .ok (v, data)

/-- One iteration of the cluster loop of package cache2. -/
def cache2.clusterItem (MakeCluster : String → clusterpb.Cluster)
    (MarshalResource : Resource → Except String Bytes) (c : cache2.Cluster)
    (n : String) : Except FetchError (Nat × Bytes) :=
  match MarshalResource (.cluster (MakeCluster (cache2.GetClusterName (c.Retrieve n).1))) with
  | .error err => .error (.marshal err)
  | .ok data => .ok ((c.Retrieve n).2, data)

/-- The nonces of the responses are stamped by an `int64` counter that has been
incremented `count` times before: the nonce at position `k`, counted from 0, is
the rendering of the counter after `count + k + 1` increments. -/
def Stamped (count : Nat) (nonces : List String) : Prop :=
  ∀ (k : Nat) (nonce : String), nonces[k]? = some nonce →
    nonce = FormatInt (server.wrapInt64 ((count : Int) + k + 1))

/-- A part of the v2 loop body, started when the counter has been incremented
`count` times, stamps what it sends and leaves the counter at the number of
increments. -/
def server2.StepStamped (count : Nat) : server2.Step → Prop
  | .next st effects =>
    Stamped count ((server2.sent effects).map (·.Nonce)) ∧
      st.streamNonce = server.wrapInt64 ((count + (server2.sent effects).length : Nat))
  | .done _ effects => Stamped count ((server2.sent effects).map (·.Nonce))

/-- The request `process` works with after the node and the type URL have been
filled in (server.go lines 227-244): a request without a node gets the remembered
node, a request without a type URL gets the stream's default type. -/
def server.resolve (defaultTypeURL : String) (st : server.State) (req : DiscoveryRequest) :
    DiscoveryRequest :=
  { req with
    Node := some (req.Node.getD st.node),
    TypeUrl := if req.TypeUrl = "" then defaultTypeURL else req.TypeUrl }

/-- A call that creates a watch, invokes a cancel handle or sends a response. -/
def server.Effect.touchesWatchOrStream : server.Effect → Bool
  | .CreateWatch _ => true
  | .cancel _ => true
  | .Send _ => true
  | _ => false

/-- The channel and the cancel handle `CreateWatch` returns while the event is
handled. -/
def server.Event.watchResult : server.Event → Option Nat × Option Nat
  | .request _ _ watch => watch
  | _ => (none, none)

/-- The cancel handle `CreateWatch` returns while the event is handled is not
nil. -/
def server.Event.hasCancel : server.Event → Bool
  | .request _ _ watch => watch.2.isSome
  | _ => true

/-- The watches that are created and not cancelled, after one more call: a
`CreateWatch` adds a watch with the request's type URL and the cancel handle the
cache returned, the invocation of a handle removes the watches it cancels. -/
def server.trackOne (watch : Option Nat × Option Nat) (live : List (String × Option Nat)) :
    server.Effect → List (String × Option Nat)
  | .CreateWatch req => live ++ [(req.TypeUrl, watch.2)]
  | .cancel handle => live.filter (fun w => w.2 ≠ some handle)
  | _ => live

/-- The watches that are created and not cancelled, after the calls of one pass
through the `select`. -/
def server.trackWatches (watch : Option Nat × Option Nat) (live : List (String × Option Nat))
    (effects : List server.Effect) : List (String × Option Nat) :=
  effects.foldl (server.trackOne watch) live

/-- The watches that are created and not cancelled when the loop of `process`
has handled the events, from the state `st` with the watches `live`. -/
def server.liveLoop (s : server.Server) (defaultTypeURL : String) :
    List server.Event → server.State → List (String × Option Nat) → List (String × Option Nat)
  | [], _, live => live
  | ev :: rest, st, live =>
    match server.processStep s defaultTypeURL st ev with
    | .next st' effects =>
      server.liveLoop s defaultTypeURL rest st' (server.trackWatches ev.watchResult live effects)
    | .done _ effects =>
      server.trackWatches ev.watchResult live (effects ++ server.deferred s st.values)

/-- The watches that are created and not cancelled when `process` has handled
the events. -/
def server.liveWatches (s : server.Server) (defaultTypeURL : String)
    (events : List server.Event) : List (String × Option Nat) :=
  if s.callbacks ∧ s.openErr.isSome then []
  else server.liveLoop s defaultTypeURL events server.initialState []

/-- The state of the loop of `process` when it returns, or when it has handled
all the events. -/
def server.loopState (s : server.Server) (defaultTypeURL : String) :
    List server.Event → server.State → server.State
  | [], st => st
  | ev :: rest, st =>
    match server.processStep s defaultTypeURL st ev with
    | .next st' _ => server.loopState s defaultTypeURL rest st'
    | .done _ _ => st

/-- The state of `process` when it returns, or when it has handled all the
events. -/
def server.returnState (s : server.Server) (defaultTypeURL : String)
    (events : List server.Event) : server.State :=
  if s.callbacks ∧ s.openErr.isSome then server.initialState
  else server.loopState s defaultTypeURL events server.initialState

/-- A call of the close hook. -/
def server.Effect.isClosed : server.Effect → Bool
  | .OnStreamClosed _ => true
  | _ => false

/-- A call that creates a watch or invokes a cancel handle. -/
def server.Effect.isWatchCall : server.Effect → Bool
  | .CreateWatch _ => true
  | .cancel _ => true
  | _ => false

/-- The invocation of a cancel handle, when there is one (`none` is nil). -/
def server.cancelCall : Option Nat → List server.Effect
  | some handle => [server.Effect.cancel handle]
  | none => []

/-- The watches `live` are those the cancel slots of the stream account for: each
has a cancel handle, is of the endpoint or the cluster type and its handle is in
the slot of its type, and there is at most one of each type. -/
def server.WatchInv (K : TypeURLs) (values : server.watches)
    (live : List (String × Option Nat)) : Prop :=
  (∀ x ∈ live, x.2 ≠ none ∧
    ((x.1 = K.EndpointType ∧ x.2 = values.endpointCancel) ∨
      (x.1 = K.ClusterType ∧ x.2 = values.clusterCancel))) ∧
  (live.filter (fun x => x.1 = K.EndpointType)).length ≤ 1 ∧
  (live.filter (fun x => x.1 = K.ClusterType)).length ≤ 1

/-! ## Sample data -/

/-- Sample type URL constants. -/
def sampleURLs : TypeURLs where
  EndpointType := "type.googleapis.com/envoy.api.v2.ClusterLoadAssignment"
  EndpointType3 := "type.googleapis.com/envoy.config.endpoint.v3.ClusterLoadAssignment"
  ClusterType := "type.googleapis.com/envoy.api.v2.Cluster"
  ClusterType3 := "type.googleapis.com/envoy.config.cluster.v3.Cluster"
  ListenerType := "type.googleapis.com/envoy.api.v2.Listener"
  RouteConfigType := "type.googleapis.com/envoy.api.v2.RouteConfiguration"
  AnyType := ""

/-- A `MarshalResource` that always succeeds: the name followed by the payloads. -/
def sampleMarshal : Resource → Except String Bytes
  | .cluster c => .ok (c.Name.toList.map Char.toNat)
  | .endpoints e => .ok (e.ClusterName.toList.map Char.toNat ++ 0 :: e.Endpoints.flatten)

/-- A `MarshalResource` that reports an error for every message. -/
def brokenMarshal : Resource → Except String Bytes :=
  fun _ => .error "marshal failed"

/-- A `MakeCluster` that builds a cluster with the given name. -/
def sampleMakeCluster (name : String) : clusterpb.Cluster :=
  { Name := name, LoadAssignment := none }

/-- A load assignment with the given cluster name. -/
def sampleCLA (name : String) : ClusterLoadAssignment :=
  { ClusterName := name, Endpoints := [[10, 0, 0, 1]], NamedEndpoints := [], Policy := none }

/-- A cache2 holding `a` at version 1 and `b` at version 2. -/
def cache2.sampleCache : cache2.Cluster where
  All := ["a", "b"]
  Retrieve := fun n =>
    if n = "a" then (some (sampleCLA "a"), 1)
    else if n = "b" then (some (sampleCLA "b"), 2)
    else (none, 0)

/-- A cache holding cluster `a` at version 1, whose load assignment carries no
cluster name, and cluster `b` at version 2, whose load assignment carries another
name. -/
def cache.sampleCache : cache.Cluster where
  All := ["a", "b"]
  Retrieve := fun n =>
    if n = "a" then (some { Name := "a", LoadAssignment := some (sampleCLA "") }, 1)
    else if n = "b" then (some { Name := "b", LoadAssignment := some (sampleCLA "other") }, 2)
    else (none, 0)

/-- A request of the endpoint type, with the client's version and the names. -/
def sampleEndpointRequest (version : String) (names : List String) : DiscoveryRequest :=
  { VersionInfo := version, Node := none, ResourceNames := names,
    TypeUrl := sampleURLs.EndpointType, ResponseNonce := "" }

/-- A request of the cluster type, with the client's version and the names. -/
def sampleClusterRequest (version : String) (names : List String) : DiscoveryRequest :=
  { VersionInfo := version, Node := none, ResourceNames := names,
    TypeUrl := sampleURLs.ClusterType, ResponseNonce := "" }

/-- A server with callbacks installed. -/
def sampleServer : server.Server :=
  { K := sampleURLs, MarshalResource := sampleMarshal, callbacks := true, streamID := 1,
    openErr := none }

/-- The payload a cluster watch delivers: clusters at the given version. -/
def sampleDelivery (version : String) : server.Response :=
  { Request := sampleClusterRequest "" [], Version := version, ResourceMarshaled := true,
    Resources := [], MarshaledResources := [[97], [98]] }

/-- A v2 server whose translations copy the fields. -/
def sampleServer2 : server2.Server2 :=
  { K := sampleURLs,
    DiscoveryRequestToV3 := fun r =>
      { VersionInfo := r.VersionInfo, Node := r.Node, ResourceNames := r.ResourceNames,
        TypeUrl := r.TypeUrl, ResponseNonce := r.ResponseNonce },
    DiscoveryResponseToV2 := fun r =>
      { VersionInfo := r.VersionInfo, Resources := r.Resources, TypeUrl := r.TypeUrl,
        Nonce := r.Nonce } }

/-- A v2 request of the cluster type from a client that knows nothing. -/
def sampleRequest2 : xdspb2.DiscoveryRequest :=
  { VersionInfo := "", Node := none, ResourceNames := [],
    TypeUrl := sampleURLs.ClusterType, ResponseNonce := "" }

/-- A v2 run over the sample cache of pkg/cache: a request, then a tick. -/
def sampleEvents2 : List server2.Event :=
  [.request (some (some sampleRequest2))
      (cache.Fetch sampleURLs sampleMarshal cache.sampleCache) (fun _ => none),
   .tick (cache.Fetch sampleURLs sampleMarshal cache.sampleCache) (fun _ => none)]

/-- A v3 run: the first request, a delivery, its acknowledgement, a delivery. -/
def sampleEvents : List server.Event :=
  [.request (some (some (sampleClusterRequest "" []))) none (some 0, some 0),
   .clusters (some (sampleDelivery "2")) none,
   .request (some (some { sampleClusterRequest "2" [] with ResponseNonce := "1" })) none
     (some 1, some 1),
   .clusters (some (sampleDelivery "3")) none]

/-- The state of a stream that has sent one cluster response, with nonce "1",
and holds a cluster watch. -/
def sampleState : server.State :=
  { streamNonce := 1,
    values := { endpoints := none, clusters := some 0, endpointCancel := none,
                clusterCancel := some 0, endpointNonce := "", clusterNonce := "1" },
    node := { Id := "test-id" } }

/-- A v2 run over the sample cache of pkg/cache2: a first request, then a tick. -/
def sampleSkipEvents : List server2.Event :=
  [.request (some (some sampleRequest2))
      (cache2.Fetch sampleURLs sampleMakeCluster sampleMarshal cache2.sampleCache) (fun _ => none),
   .tick (cache2.Fetch sampleURLs sampleMakeCluster sampleMarshal cache2.sampleCache)
      (fun _ => none)]

/-- A load report that names the given clusters. -/
def sampleReport (clusters : List String) : loadpb.LoadStatsResponse :=
  { Clusters := clusters, LoadReportingInterval := 2, ReportEndpointGranularity := true }

/-- A `SetLoad` that accepts every report. -/
def sampleSetLoad : loadpb.LoadStatsResponse → Except String loadpb.LoadStatsRequest :=
  fun _ => .ok { Node := none, ClusterStats := [] }

/-! ## The loops -/

theorem ite_gt_eq_max (v version : Nat) : (if v > version then v else version) = max version v := by
  split <;> omega

theorem maxVersion_cons (v : Nat) (vs : List Nat) :
    maxVersion (v :: vs) = max v (maxVersion vs) := rfl

theorem cache.endpointLoop_eq (M : Resource → Except String Bytes) (c : cache.Cluster)
    (t : String) (names : List String) (version : Nat) (resources : List Any) :
    cache.endpointLoop M c t names version resources
      = fetchLoop t (cache.endpointItem M c) names version resources := by
  induction names generalizing version resources with
  | nil => rfl
  | cons n rest ih =>
    simp only [cache.endpointLoop, fetchLoop, cache.endpointItem]
    rcases hr : c.Retrieve n with ⟨_ | cluster, v⟩
    · rfl
    · rcases hl : cluster.LoadAssignment with _ | la
      · simp [hl]
      · simp only [hl]
        cases hm : M (.endpoints (if la.ClusterName ≠ n then { la with ClusterName := n } else la))
        · simp [hm]
        · simp [hm, ih]

theorem cache.clusterLoop_eq (M : Resource → Except String Bytes) (c : cache.Cluster)
    (t : String) (names : List String) (version : Nat) (resources : List Any) :
    cache.clusterLoop M c t names version resources
      = fetchLoop t (cache.clusterItem M c) names version resources := by
  induction names generalizing version resources with
  | nil => rfl
  | cons n rest ih =>
    simp only [cache.clusterLoop, fetchLoop, cache.clusterItem]
    rcases hr : c.Retrieve n with ⟨_ | cluster, v⟩
    · rfl
    · cases hm : M (.cluster cluster)
      · simp [hm]
      · simp [hm, ih]

theorem cache2.clusterLoop2_eq (mk : String → clusterpb.Cluster)
    (M : Resource → Except String Bytes) (K : TypeURLs) (c : cache2.Cluster)
    (names : List String) (version : Nat) (resources : List Any) :
    cache2.clusterLoop mk M K c names version resources
      = fetchLoop K.ClusterType (cache2.clusterItem mk M c) names version resources := by
  induction names generalizing version resources with
  | nil => rfl
  | cons n rest ih =>
    simp only [cache2.clusterLoop, fetchLoop, cache2.clusterItem]
    cases hm : M (.cluster (mk (cache2.GetClusterName (c.Retrieve n).1)))
    · simp [hm]
    · simp [hm, ih]

/-- A loop that meets no error visits every name: it returns the maximum of the
start version and the versions seen, and appends one resource per name. -/
theorem fetchLoop_of_forall₂ (t : String) (item : String → Except FetchError (Nat × Bytes))
    {names : List String} {items : List (Nat × Bytes)}
    (h : List.Forall₂ (fun n it => item n = .ok it) names items)
    (version : Nat) (resources : List Any) :
    fetchLoop t item names version resources
      = .ok (max version (maxVersion (items.map Prod.fst)),
             resources ++ items.map (fun it => { TypeUrl := t, Value := it.2 })) := by
  induction h generalizing version resources with
  | nil => simp [fetchLoop, maxVersion]
  | @cons n it names items hn _ ih =>
    obtain ⟨v, data⟩ := it
    simp only [fetchLoop, hn, ih, ite_gt_eq_max, List.map_cons, maxVersion_cons,
      List.append_assoc, List.singleton_append, max_assoc]

/-- A loop that returns a result met no error. -/
theorem fetchLoop_eq_ok (t : String) (item : String → Except FetchError (Nat × Bytes))
    {names : List String} {version : Nat} {resources : List Any} {p : Nat × List Any}
    (h : fetchLoop t item names version resources = .ok p) :
    ∃ items, List.Forall₂ (fun n it => item n = .ok it) names items := by
  induction names generalizing version resources with
  | nil => exact ⟨[], List.Forall₂.nil⟩
  | cons n rest ih =>
    simp only [fetchLoop] at h
    cases hn : item n with
    | error e => simp [hn] at h
    | ok it =>
      obtain ⟨v, data⟩ := it
      simp only [hn] at h
      obtain ⟨items, hi⟩ := ih h
      exact ⟨(v, data) :: items, List.Forall₂.cons hn hi⟩

/-- A loop that returns an error returns the error of one of its iterations. -/
theorem fetchLoop_eq_error (t : String) (item : String → Except FetchError (Nat × Bytes))
    {names : List String} {version : Nat} {resources : List Any} {e : FetchError}
    (h : fetchLoop t item names version resources = .error e) :
    ∃ n ∈ names, item n = .error e := by
  induction names generalizing version resources with
  | nil => simp [fetchLoop] at h
  | cons n rest ih =>
    simp only [fetchLoop] at h
    cases hn : item n with
    | error e' =>
      simp only [hn, Except.error.injEq] at h
      exact ⟨n, List.mem_cons_self _ _, by rw [hn, h]⟩
    | ok it =>
      obtain ⟨v, data⟩ := it
      simp only [hn] at h
      obtain ⟨m, hm, hme⟩ := ih h
      exact ⟨m, List.mem_cons_of_mem _ hm, hme⟩

/-- When every iteration succeeds there is a list of their results. -/
theorem forall₂_of_forall_ok (item : String → Except FetchError (Nat × Bytes))
    (names : List String) (h : ∀ n ∈ names, ∃ it, item n = .ok it) :
    ∃ items, List.Forall₂ (fun n it => item n = .ok it) names items := by
  induction names with
  | nil => exact ⟨[], List.Forall₂.nil⟩
  | cons n rest ih =>
    obtain ⟨it, hit⟩ := h n (List.mem_cons_self _ _)
    obtain ⟨items, hi⟩ := ih (fun m hm => h m (List.mem_cons_of_mem _ hm))
    exact ⟨it :: items, List.Forall₂.cons hit hi⟩

/-- The results of the iterations, read back name by name. -/
theorem forall₂_ok_mem (item : String → Except FetchError (Nat × Bytes))
    {names : List String} {items : List (Nat × Bytes)}
    (h : List.Forall₂ (fun n it => item n = .ok it) names items) :
    ∀ n ∈ names, ∃ it, item n = .ok it := by
  induction h with
  | nil => simp
  | @cons n it names items hn _ ih =>
    intro m hm
    rcases List.mem_cons.1 hm with rfl | hm
    · exact ⟨it, hn⟩
    · exact ih m hm

/-- The versions of the results are the versions `f` assigns to the names. -/
theorem forall₂_ok_versions (item : String → Except FetchError (Nat × Bytes)) (f : String → Nat)
    (hf : ∀ n it, item n = .ok it → it.1 = f n)
    {names : List String} {items : List (Nat × Bytes)}
    (h : List.Forall₂ (fun n it => item n = .ok it) names items) :
    items.map Prod.fst = names.map f := by
  induction h with
  | nil => rfl
  | @cons n it names items hn _ ih => simp [ih, hf n it hn]

theorem cache2.clusterItem_ok_iff (mk : String → clusterpb.Cluster)
    (M : Resource → Except String Bytes) (c : cache2.Cluster) (n : String) (it : Nat × Bytes) :
    cache2.clusterItem mk M c n = .ok it ↔
      it.1 = (c.Retrieve n).2 ∧
        M (.cluster (mk (cache2.GetClusterName (c.Retrieve n).1))) = .ok it.2 := by
  obtain ⟨v, data⟩ := it
  unfold cache2.clusterItem
  cases hm : M (.cluster (mk (cache2.GetClusterName (c.Retrieve n).1))) with
  | error e => simp
  | ok d => simp [eq_comm]

theorem cache2.clusterItem_error (mk : String → clusterpb.Cluster)
    (M : Resource → Except String Bytes) (c : cache2.Cluster) (n : String) (e : FetchError)
    (h : cache2.clusterItem mk M c n = .error e) :
    ∃ s, e = .marshal s ∧
      M (.cluster (mk (cache2.GetClusterName (c.Retrieve n).1))) = .error s := by
  unfold cache2.clusterItem at h
  cases hm : M (.cluster (mk (cache2.GetClusterName (c.Retrieve n).1))) with
  | error s => rw [hm] at h; simp at h; exact ⟨s, h.symm, rfl⟩
  | ok d => rw [hm] at h; simp at h

/-- The cluster branch of cache2 `Fetch`, in terms of the shared loop. -/
theorem cache2.Fetch_cluster (K : TypeURLs) (mk : String → clusterpb.Cluster)
    (M : Resource → Except String Bytes) (c : cache2.Cluster) (req : DiscoveryRequest)
    (hne : K.EndpointType ≠ K.ClusterType) (ht : req.TypeUrl = K.ClusterType) :
    cache2.Fetch K mk M c req =
      match fetchLoop K.ClusterType (cache2.clusterItem mk M c) (lookedUp c.All req) 0 [] with
      | .error err => .error err
      | .ok (version, resources) =>
        if FormatUint version = req.VersionInfo then .error .SkipFetchError
        else .ok { VersionInfo := FormatUint version, Resources := resources,
                   TypeUrl := K.ClusterType, Nonce := "" } := by
  have h1 : ¬ K.ClusterType = K.EndpointType := fun h => hne h.symm
  simp only [cache2.Fetch, h1, ht, if_true, if_false, cache2.clusterLoop2_eq, lookedUp]

/-- A loop started from version 0 and no resources that returns a result returns
the maximum of the versions and one resource per name. -/
theorem fetchLoop_ok_spec (t : String) (item : String → Except FetchError (Nat × Bytes))
    {names : List String} {p : Nat × List Any}
    (h : fetchLoop t item names 0 [] = .ok p) :
    ∃ items, List.Forall₂ (fun n it => item n = .ok it) names items ∧
      p = (maxVersion (items.map Prod.fst),
           items.map (fun it => { TypeUrl := t, Value := it.2 })) := by
  obtain ⟨items, hi⟩ := fetchLoop_eq_ok t item h
  refine ⟨items, hi, ?_⟩
  rw [fetchLoop_of_forall₂ t item hi 0 []] at h
  simpa [eq_comm] using h

/-- A property of every iteration result is a property of every resource. -/
theorem forall₂_resources (t : String) (item : String → Except FetchError (Nat × Bytes))
    (P : String → Any → Prop)
    (hP : ∀ n it, item n = .ok it → P n { TypeUrl := t, Value := it.2 })
    {names : List String} {items : List (Nat × Bytes)}
    (h : List.Forall₂ (fun n it => item n = .ok it) names items) :
    List.Forall₂ P names (items.map (fun it => { TypeUrl := t, Value := it.2 })) := by
  induction h with
  | nil => exact List.Forall₂.nil
  | @cons n it names items hn _ ih => exact List.Forall₂.cons (hP n it hn) ih

theorem cache.clusterItem_ok (M : Resource → Except String Bytes) (c : cache.Cluster)
    (n : String) (it : Nat × Bytes) (h : cache.clusterItem M c n = .ok it) :
    ∃ cluster, c.Retrieve n = (some cluster, it.1) ∧ M (.cluster cluster) = .ok it.2 := by
  obtain ⟨v, data⟩ := it
  unfold cache.clusterItem at h
  rcases hr : c.Retrieve n with ⟨_ | cluster, w⟩
  · simp [hr] at h
  · simp only [hr] at h
    cases hm : M (.cluster cluster) with
    | error e => simp [hm] at h
    | ok d =>
      simp only [hm, Except.ok.injEq, Prod.mk.injEq] at h
      obtain ⟨rfl, rfl⟩ := h
      exact ⟨cluster, rfl, hm⟩

theorem cache.endpointItem_ok (M : Resource → Except String Bytes) (c : cache.Cluster)
    (n : String) (it : Nat × Bytes) (h : cache.endpointItem M c n = .ok it) :
    ∃ cluster la, c.Retrieve n = (some cluster, it.1) ∧ cluster.LoadAssignment = some la ∧
      M (.endpoints { la with ClusterName := n }) = .ok it.2 := by
  obtain ⟨v, data⟩ := it
  unfold cache.endpointItem at h
  rcases hr : c.Retrieve n with ⟨_ | cluster, w⟩
  · simp [hr] at h
  · simp only [hr] at h
    rcases hl : cluster.LoadAssignment with _ | la
    · simp [hl] at h
    · simp only [hl] at h
      have hla : (if la.ClusterName ≠ n then { la with ClusterName := n } else la)
          = { la with ClusterName := n } := by
        split
        · rfl
        · rename_i hc
          have hc' : la.ClusterName = n := not_not.1 hc
          cases la
          simp_all
      rw [hla] at h
      cases hm : M (.endpoints { la with ClusterName := n }) with
      | error e => simp [hm] at h
      | ok d =>
        simp only [hm, Except.ok.injEq, Prod.mk.injEq] at h
        obtain ⟨rfl, rfl⟩ := h
        exact ⟨cluster, la, rfl, hl, hm⟩

theorem cache.clusterItem_ne_skip (M : Resource → Except String Bytes) (c : cache.Cluster)
    (n : String) : cache.clusterItem M c n ≠ .error .SkipFetchError := by
  unfold cache.clusterItem
  rcases hr : c.Retrieve n with ⟨_ | cluster, w⟩
  · simp
  · cases hm : M (.cluster cluster) <;> simp [hm]

theorem cache.endpointItem_ne_skip (M : Resource → Except String Bytes) (c : cache.Cluster)
    (n : String) : cache.endpointItem M c n ≠ .error .SkipFetchError := by
  unfold cache.endpointItem
  rcases hr : c.Retrieve n with ⟨_ | cluster, w⟩
  · simp
  · rcases hl : cluster.LoadAssignment with _ | la
    · simp [hl]
    · simp only [hl]
      cases hm : M (.endpoints (if la.ClusterName ≠ n then { la with ClusterName := n } else la))
        <;> simp [hm]

/-- `Fetch` of package cache, in terms of the shared loop. -/
theorem cache.Fetch_eq (K : TypeURLs) (M : Resource → Except String Bytes) (c : cache.Cluster)
    (req : DiscoveryRequest) :
    cache.Fetch K M c req =
      if req.TypeUrl = K.EndpointType ∨ req.TypeUrl = K.EndpointType3 then
        match fetchLoop req.TypeUrl (cache.endpointItem M c) (lookedUp c.All req) 0 [] with
        | .error err => .error err
        | .ok (version, resources) =>
          .ok { VersionInfo := FormatUint version, Resources := resources,
                TypeUrl := req.TypeUrl, Nonce := "" }
      else if req.TypeUrl = K.ClusterType ∨ req.TypeUrl = K.ClusterType3 then
        match fetchLoop req.TypeUrl (cache.clusterItem M c) (lookedUp c.All req) 0 [] with
        | .error err => .error err
        | .ok (version, resources) =>
          .ok { VersionInfo := FormatUint version, Resources := resources,
                TypeUrl := req.TypeUrl, Nonce := "" }
      else .error (.unsupported req.TypeUrl) := by
  simp only [cache.Fetch, cache.endpointLoop_eq, cache.clusterLoop_eq, lookedUp]

/-- `Fetch` of package cache2, in terms of the shared loop. -/
theorem cache2.Fetch2_eq (K : TypeURLs) (mk : String → clusterpb.Cluster)
    (M : Resource → Except String Bytes) (c : cache2.Cluster) (req : DiscoveryRequest) :
    cache2.Fetch K mk M c req =
      if req.TypeUrl = K.EndpointType then .error (.unsupported req.TypeUrl)
      else if req.TypeUrl = K.ClusterType then
        match fetchLoop K.ClusterType (cache2.clusterItem mk M c) (lookedUp c.All req) 0 [] with
        | .error err => .error err
        | .ok (version, resources) =>
          if FormatUint version = req.VersionInfo then .error .SkipFetchError
          else .ok { VersionInfo := FormatUint version, Resources := resources,
                     TypeUrl := K.ClusterType, Nonce := "" }
      else .error (.unsupported req.TypeUrl) := by
  simp only [cache2.Fetch, cache2.clusterLoop2_eq, lookedUp]

/-- What a successful `Fetch` of package cache went through. -/
theorem cache.Fetch_eq_ok (K : TypeURLs) (M : Resource → Except String Bytes) (c : cache.Cluster)
    (req : DiscoveryRequest) (resp : DiscoveryResponse) (h : cache.Fetch K M c req = .ok resp) :
    ((req.TypeUrl = K.EndpointType ∨ req.TypeUrl = K.EndpointType3) ∧
      ∃ items, List.Forall₂ (fun n it => cache.endpointItem M c n = .ok it)
          (lookedUp c.All req) items ∧
        resp = { VersionInfo := FormatUint (maxVersion (items.map Prod.fst)),
                 Resources := items.map (fun it => { TypeUrl := req.TypeUrl, Value := it.2 }),
                 TypeUrl := req.TypeUrl, Nonce := "" }) ∨
    (¬ (req.TypeUrl = K.EndpointType ∨ req.TypeUrl = K.EndpointType3) ∧
      ∃ items, List.Forall₂ (fun n it => cache.clusterItem M c n = .ok it)
          (lookedUp c.All req) items ∧
        resp = { VersionInfo := FormatUint (maxVersion (items.map Prod.fst)),
                 Resources := items.map (fun it => { TypeUrl := req.TypeUrl, Value := it.2 }),
                 TypeUrl := req.TypeUrl, Nonce := "" }) := by
  rw [cache.Fetch_eq] at h
  by_cases he : req.TypeUrl = K.EndpointType ∨ req.TypeUrl = K.EndpointType3
  · left
    refine ⟨he, ?_⟩
    rw [if_pos he] at h
    cases hl : fetchLoop req.TypeUrl (cache.endpointItem M c) (lookedUp c.All req) 0 [] with
    | error e => rw [hl] at h; simp at h
    | ok p =>
      obtain ⟨items, hi, hp⟩ := fetchLoop_ok_spec _ _ hl
      rw [hl, hp] at h
      simp only [Except.ok.injEq] at h
      exact ⟨items, hi, h.symm⟩
  · right
    refine ⟨he, ?_⟩
    rw [if_neg he] at h
    by_cases hc : req.TypeUrl = K.ClusterType ∨ req.TypeUrl = K.ClusterType3
    · rw [if_pos hc] at h
      cases hl : fetchLoop req.TypeUrl (cache.clusterItem M c) (lookedUp c.All req) 0 [] with
      | error e => rw [hl] at h; simp at h
      | ok p =>
        obtain ⟨items, hi, hp⟩ := fetchLoop_ok_spec _ _ hl
        rw [hl, hp] at h
        simp only [Except.ok.injEq] at h
        exact ⟨items, hi, h.symm⟩
    · rw [if_neg hc] at h
      simp at h

/-- What a successful `Fetch` of package cache2 went through. -/
theorem cache2.Fetch2_eq_ok (K : TypeURLs) (mk : String → clusterpb.Cluster)
    (M : Resource → Except String Bytes) (c : cache2.Cluster)
    (req : DiscoveryRequest) (resp : DiscoveryResponse)
    (h : cache2.Fetch K mk M c req = .ok resp) :
    req.TypeUrl = K.ClusterType ∧
      ∃ items, List.Forall₂ (fun n it => cache2.clusterItem mk M c n = .ok it)
          (lookedUp c.All req) items ∧
        resp = { VersionInfo := FormatUint (maxVersion (items.map Prod.fst)),
                 Resources := items.map (fun it => { TypeUrl := K.ClusterType, Value := it.2 }),
                 TypeUrl := K.ClusterType, Nonce := "" } := by
  rw [cache2.Fetch2_eq] at h
  by_cases he : req.TypeUrl = K.EndpointType
  · rw [if_pos he] at h
    simp at h
  · rw [if_neg he] at h
    by_cases hc : req.TypeUrl = K.ClusterType
    · refine ⟨hc, ?_⟩
      rw [if_pos hc] at h
      cases hl : fetchLoop K.ClusterType (cache2.clusterItem mk M c) (lookedUp c.All req) 0 [] with
      | error e => rw [hl] at h; simp at h
      | ok p =>
        obtain ⟨items, hi, hp⟩ := fetchLoop_ok_spec _ _ hl
        rw [hl, hp] at h
        simp only at h
        split at h
        · simp at h
        · simp only [Except.ok.injEq] at h
          exact ⟨items, hi, h.symm⟩
    · rw [if_neg hc] at h
      simp at h

/-- When `MarshalResource` succeeds for every looked-up name, the loop of cache2
`Fetch` returns the maximum version and one resource per name. -/
theorem cache2.fetchLoop_of_marshal_ok (K : TypeURLs) (mk : String → clusterpb.Cluster)
    (M : Resource → Except String Bytes) (c : cache2.Cluster) (names : List String)
    (hall : ∀ n ∈ names,
      ∃ data, M (.cluster (mk (cache2.GetClusterName (c.Retrieve n).1))) = .ok data) :
    ∃ items, List.Forall₂ (fun n it => cache2.clusterItem mk M c n = .ok it) names items ∧
      fetchLoop K.ClusterType (cache2.clusterItem mk M c) names 0 []
        = .ok (maxVersion (names.map (fun n => (c.Retrieve n).2)),
               items.map (fun it => { TypeUrl := K.ClusterType, Value := it.2 })) := by
  obtain ⟨items, hi⟩ := forall₂_of_forall_ok (cache2.clusterItem mk M c) names
    (fun n hn => by
      obtain ⟨data, hd⟩ := hall n hn
      exact ⟨((c.Retrieve n).2, data), (cache2.clusterItem_ok_iff mk M c n _).2 ⟨rfl, hd⟩⟩)
  have hv := forall₂_ok_versions (cache2.clusterItem mk M c) (fun n => (c.Retrieve n).2)
    (fun n it h => ((cache2.clusterItem_ok_iff mk M c n it).1 h).1) hi
  refine ⟨items, hi, ?_⟩
  rw [fetchLoop_of_forall₂ K.ClusterType _ hi 0 [], hv, Nat.zero_max, List.nil_append]

/-! ## The decimal rendering -/

theorem toDigitsCore_ne_nil (b : Nat) : ∀ (fuel n : Nat) (ds : List Char), ds ≠ [] →
    Nat.toDigitsCore b fuel n ds ≠ [] := by
  intro fuel
  induction fuel with
  | zero => intro n ds h; simpa [Nat.toDigitsCore] using h
  | succ f ih =>
    intro n ds _
    simp only [Nat.toDigitsCore]
    split
    · simp
    · exact ih _ _ (by simp)

theorem toDigits_ne_nil (b n : Nat) : Nat.toDigits b n ≠ [] := by
  unfold Nat.toDigits
  simp only [Nat.toDigitsCore]
  split
  · simp
  · exact toDigitsCore_ne_nil _ _ _ _ (by simp)

/-- The decimal rendering of a version is never the empty string. -/
theorem FormatUint_ne_empty (v : Nat) : FormatUint v ≠ "" := by
  unfold FormatUint Nat.repr
  intro h
  have := congrArg String.data h
  simp [List.asString] at this
  exact toDigits_ne_nil _ _ this

/-! ## The order of `sort.Strings` -/

theorem stringLE_iff (a b : String) : stringLE a b ↔ a ≤ b :=
  String.le_iff_toList_le.symm

instance : IsTotal String stringLE :=
  ⟨fun a b => by simpa only [stringLE_iff] using le_total a b⟩

instance : IsTrans String stringLE :=
  ⟨fun a b c => by simpa only [stringLE_iff] using @le_trans String _ a b c⟩

/-- `sortStrings` returns its argument rearranged in increasing order. -/
theorem sortStrings_sorted_perm (names : List String) :
    List.Sorted (· ≤ ·) (sortStrings names) ∧ (sortStrings names).Perm names := by
  refine ⟨?_, List.perm_insertionSort stringLE names⟩
  exact (List.sorted_insertionSort stringLE names).imp (fun h => (stringLE_iff _ _).1 h)

theorem lookedUp_of_ne_nil (all : List String) (req : DiscoveryRequest)
    (h : req.ResourceNames ≠ []) : lookedUp all req = sortStrings req.ResourceNames := by
  unfold lookedUp
  rw [if_neg]
  intro h0
  have hp := (sortStrings_sorted_perm req.ResourceNames).2
  rw [List.length_eq_zero.1 h0] at hp
  exact h hp.symm.eq_nil

theorem lookedUp_of_eq_nil (all : List String) (req : DiscoveryRequest)
    (h : req.ResourceNames = []) : lookedUp all req = all := by
  unfold lookedUp
  rw [h]
  rfl

/-! ## Fetch of package cache2 -/

/-- C1 (as stated, refuted): with a `MarshalResource` that fails, a ClusterType
request whose version equals the rendered maximum version gets the marshalling
error, not the Skip sentinel. -/
theorem cache2_Fetch_skip_counterexample :
    FormatUint (maxVersion ((lookedUp cache2.sampleCache.All (sampleClusterRequest "2" [])).map
        (fun n => (cache2.sampleCache.Retrieve n).2))) = (sampleClusterRequest "2" []).VersionInfo ∧
    cache2.Fetch sampleURLs sampleMakeCluster brokenMarshal cache2.sampleCache
        (sampleClusterRequest "2" []) = .error (.marshal "marshal failed") ∧
    ¬ (cache2.Fetch sampleURLs sampleMakeCluster brokenMarshal cache2.sampleCache
          (sampleClusterRequest "2" []) = .error .SkipFetchError ↔
        FormatUint (maxVersion ((lookedUp cache2.sampleCache.All (sampleClusterRequest "2" [])).map
          (fun n => (cache2.sampleCache.Retrieve n).2))) = (sampleClusterRequest "2" []).VersionInfo) := by
  decide

/-- C1 (amended): for a ClusterType request, cache2 `Fetch` returns the Skip
sentinel exactly when `MarshalResource` succeeds for every looked-up name and the
decimal rendering of the maximum version among the looked-up names equals
`req.VersionInfo`; when marshalling succeeds and the two differ it returns a
response and no error. -/
theorem cache2_Fetch_skip_iff (K : TypeURLs) (mk : String → clusterpb.Cluster)
    (M : Resource → Except String Bytes) (c : cache2.Cluster) (req : DiscoveryRequest)
    (hne : K.EndpointType ≠ K.ClusterType) (ht : req.TypeUrl = K.ClusterType) :
    (cache2.Fetch K mk M c req = .error .SkipFetchError ↔
      (∀ n ∈ lookedUp c.All req,
          ∃ data, M (.cluster (mk (cache2.GetClusterName (c.Retrieve n).1))) = .ok data) ∧
        FormatUint (maxVersion ((lookedUp c.All req).map (fun n => (c.Retrieve n).2)))
          = req.VersionInfo) ∧
    ((∀ n ∈ lookedUp c.All req,
          ∃ data, M (.cluster (mk (cache2.GetClusterName (c.Retrieve n).1))) = .ok data) →
      FormatUint (maxVersion ((lookedUp c.All req).map (fun n => (c.Retrieve n).2)))
          ≠ req.VersionInfo →
      ∃ resp, cache2.Fetch K mk M c req = .ok resp) := by
  rw [cache2.Fetch_cluster K mk M c req hne ht]
  have key : (∀ n ∈ lookedUp c.All req,
      ∃ data, M (.cluster (mk (cache2.GetClusterName (c.Retrieve n).1))) = .ok data) →
      ∃ resources, fetchLoop K.ClusterType (cache2.clusterItem mk M c) (lookedUp c.All req) 0 []
        = .ok (maxVersion ((lookedUp c.All req).map (fun n => (c.Retrieve n).2)), resources) := by
    intro hall
    obtain ⟨items, hi⟩ := forall₂_of_forall_ok (cache2.clusterItem mk M c) (lookedUp c.All req)
      (fun n hn => by
        obtain ⟨data, hd⟩ := hall n hn
        exact ⟨((c.Retrieve n).2, data), (cache2.clusterItem_ok_iff mk M c n _).2 ⟨rfl, hd⟩⟩)
    have hv := forall₂_ok_versions (cache2.clusterItem mk M c) (fun n => (c.Retrieve n).2)
      (fun n it h => ((cache2.clusterItem_ok_iff mk M c n it).1 h).1) hi
    refine ⟨[] ++ items.map (fun it => { TypeUrl := K.ClusterType, Value := it.2 }), ?_⟩
    rw [fetchLoop_of_forall₂ K.ClusterType _ hi 0 [], hv, Nat.zero_max]
  constructor
  · constructor
    · intro h
      cases hl : fetchLoop K.ClusterType (cache2.clusterItem mk M c) (lookedUp c.All req) 0 [] with
      | error e =>
        rw [hl] at h
        obtain ⟨n, _, hn⟩ := fetchLoop_eq_error _ _ hl
        obtain ⟨s, hs, _⟩ := cache2.clusterItem_error mk M c n e hn
        simp [hs] at h
      | ok p =>
        obtain ⟨items, hi⟩ := fetchLoop_eq_ok _ _ hl
        have hall : ∀ n ∈ lookedUp c.All req,
            ∃ data, M (.cluster (mk (cache2.GetClusterName (c.Retrieve n).1))) = .ok data := by
          intro n hn
          obtain ⟨it, hit⟩ := forall₂_ok_mem _ hi n hn
          exact ⟨it.2, ((cache2.clusterItem_ok_iff mk M c n it).1 hit).2⟩
        refine ⟨hall, ?_⟩
        obtain ⟨resources, hr⟩ := key hall
        rw [hr] at h
        by_contra hne2
        simp [hne2] at h
    · rintro ⟨hall, hv⟩
      obtain ⟨resources, hr⟩ := key hall
      rw [hr]
      simp [hv]
  · intro hall hv
    obtain ⟨resources, hr⟩ := key hall
    rw [hr]
    simp [hv]

/-- C1 (amended), at a sample cache: the client at version 2 is skipped, the
client at version 1 gets a response. -/
theorem cache2_Fetch_skip_iff_witness :
    (cache2.Fetch sampleURLs sampleMakeCluster sampleMarshal cache2.sampleCache
        (sampleClusterRequest "2" []) = .error .SkipFetchError ↔
      (∀ n ∈ lookedUp cache2.sampleCache.All (sampleClusterRequest "2" []),
          ∃ data, sampleMarshal (.cluster (sampleMakeCluster
            (cache2.GetClusterName (cache2.sampleCache.Retrieve n).1))) = .ok data) ∧
        FormatUint (maxVersion ((lookedUp cache2.sampleCache.All (sampleClusterRequest "2" [])).map
          (fun n => (cache2.sampleCache.Retrieve n).2))) = (sampleClusterRequest "2" []).VersionInfo) :=
  (cache2_Fetch_skip_iff sampleURLs sampleMakeCluster sampleMarshal cache2.sampleCache
    (sampleClusterRequest "2" []) (by decide) rfl).1

/-! ## Fetch of package cache -/

/-- C2 (the code at the failing input): a cluster request to pkg/cache `Fetch`
whose version equals the rendered maximum version gets the full response, where
`Fetch` of pkg/cache2 returns Skip for the same names and versions; on a v2
stream over pkg/cache the tick sends the unchanged cluster version a second time;
and no input makes pkg/cache `Fetch` return Skip. -/
theorem cache_Fetch_ignores_version :
    (sampleClusterRequest "2" []).VersionInfo
      = FormatUint (maxVersion ((lookedUp cache.sampleCache.All (sampleClusterRequest "2" [])).map
          (fun n => (cache.sampleCache.Retrieve n).2))) ∧
    cache.Fetch sampleURLs sampleMarshal cache.sampleCache (sampleClusterRequest "2" [])
      = .ok { VersionInfo := "2",
              Resources := [{ TypeUrl := sampleURLs.ClusterType, Value := [97] },
                            { TypeUrl := sampleURLs.ClusterType, Value := [98] }],
              TypeUrl := sampleURLs.ClusterType, Nonce := "" } ∧
    cache2.Fetch sampleURLs sampleMakeCluster sampleMarshal cache2.sampleCache
        (sampleClusterRequest "2" []) = .error .SkipFetchError ∧
    ((server2.sent (server2.discoveryProcess sampleServer2 sampleURLs.ClusterType
        sampleEvents2).trace).map (fun r => (r.TypeUrl, r.VersionInfo, r.Nonce))).take 2
      = [(sampleURLs.ClusterType, "2", "1"), (sampleURLs.ClusterType, "2", "2")] ∧
    ∀ (K : TypeURLs) (M : Resource → Except String Bytes) (c : cache.Cluster)
      (req : DiscoveryRequest), cache.Fetch K M c req ≠ .error .SkipFetchError := by
  refine ⟨by decide, by decide, by decide, by decide, ?_⟩
  intro K M c req
  rw [cache.Fetch_eq]
  split
  · cases hl : fetchLoop req.TypeUrl (cache.endpointItem M c) (lookedUp c.All req) 0 [] with
    | error e =>
      obtain ⟨n, _, hn⟩ := fetchLoop_eq_error _ _ hl
      intro h
      simp only [Except.error.injEq] at h
      exact cache.endpointItem_ne_skip M c n (by rw [hn, h])
    | ok p => simp
  · split
    · cases hl : fetchLoop req.TypeUrl (cache.clusterItem M c) (lookedUp c.All req) 0 [] with
      | error e =>
        obtain ⟨n, _, hn⟩ := fetchLoop_eq_error _ _ hl
        intro h
        simp only [Except.error.injEq] at h
        exact cache.clusterItem_ne_skip M c n (by rw [hn, h])
      | ok p => simp
    · simp

/-! ## The version of a response -/

/-- C3: the `VersionInfo` of the response of a successful `Fetch` (pkg/cache in
its endpoint and cluster branches, pkg/cache2) is the decimal rendering of the
maximum of the versions `Retrieve` returned for the looked-up names, and is "0"
when no name was looked up. -/
theorem Fetch_versionInfo (K : TypeURLs) (mk : String → clusterpb.Cluster)
    (M : Resource → Except String Bytes) (c : cache.Cluster) (c2 : cache2.Cluster)
    (req : DiscoveryRequest) (resp : DiscoveryResponse) :
    (cache.Fetch K M c req = .ok resp →
      resp.VersionInfo
        = FormatUint (maxVersion ((lookedUp c.All req).map (fun n => (c.Retrieve n).2))) ∧
      (lookedUp c.All req = [] → resp.VersionInfo = "0")) ∧
    (cache2.Fetch K mk M c2 req = .ok resp →
      resp.VersionInfo
        = FormatUint (maxVersion ((lookedUp c2.All req).map (fun n => (c2.Retrieve n).2))) ∧
      (lookedUp c2.All req = [] → resp.VersionInfo = "0")) := by
  have zero : ∀ (names : List String) (f : String → Nat), names = [] →
      FormatUint (maxVersion (names.map f)) = "0" := by
    intro names f h
    subst h
    simp only [List.map_nil]
    decide
  constructor
  · intro h
    have hver : resp.VersionInfo
        = FormatUint (maxVersion ((lookedUp c.All req).map (fun n => (c.Retrieve n).2))) := by
      rcases cache.Fetch_eq_ok K M c req resp h with ⟨_, items, hi, hr⟩ | ⟨_, items, hi, hr⟩
      · have hv := forall₂_ok_versions (cache.endpointItem M c) (fun n => (c.Retrieve n).2)
          (fun n it hit => by
            obtain ⟨cluster, la, h1, _⟩ := cache.endpointItem_ok M c n it hit
            simp only [h1]) hi
        rw [hr, hv]
      · have hv := forall₂_ok_versions (cache.clusterItem M c) (fun n => (c.Retrieve n).2)
          (fun n it hit => by
            obtain ⟨cluster, h1, _⟩ := cache.clusterItem_ok M c n it hit
            simp only [h1]) hi
        rw [hr, hv]
    exact ⟨hver, fun hnil => by rw [hver]; exact zero _ _ hnil⟩
  · intro h
    have hver : resp.VersionInfo
        = FormatUint (maxVersion ((lookedUp c2.All req).map (fun n => (c2.Retrieve n).2))) := by
      obtain ⟨_, items, hi, hr⟩ := cache2.Fetch2_eq_ok K mk M c2 req resp h
      have hv := forall₂_ok_versions (cache2.clusterItem mk M c2) (fun n => (c2.Retrieve n).2)
        (fun n it hit => ((cache2.clusterItem_ok_iff mk M c2 n it).1 hit).1) hi
      rw [hr, hv]
    exact ⟨hver, fun hnil => by rw [hver]; exact zero _ _ hnil⟩

/-- C3, at the sample caches: an endpoint fetch of pkg/cache and a cluster fetch of
pkg/cache2 answer with version "2", the maximum of the versions 1 and 2. -/
theorem Fetch_versionInfo_witness :
    (DiscoveryResponse.mk "2" [⟨sampleURLs.EndpointType, [97, 0, 10, 0, 0, 1]⟩,
        ⟨sampleURLs.EndpointType, [98, 0, 10, 0, 0, 1]⟩] sampleURLs.EndpointType "").VersionInfo
      = FormatUint (maxVersion ((lookedUp cache.sampleCache.All (sampleEndpointRequest "" [])).map
          (fun n => (cache.sampleCache.Retrieve n).2))) ∧
    (DiscoveryResponse.mk "2" [⟨sampleURLs.ClusterType, [97]⟩,
        ⟨sampleURLs.ClusterType, [98]⟩] sampleURLs.ClusterType "").VersionInfo
      = FormatUint (maxVersion ((lookedUp cache2.sampleCache.All (sampleClusterRequest "" [])).map
          (fun n => (cache2.sampleCache.Retrieve n).2))) :=
  ⟨((Fetch_versionInfo sampleURLs sampleMakeCluster sampleMarshal cache.sampleCache
      cache2.sampleCache (sampleEndpointRequest "" []) _).1 (by decide)).1,
   ((Fetch_versionInfo sampleURLs sampleMakeCluster sampleMarshal cache.sampleCache
      cache2.sampleCache (sampleClusterRequest "" []) _).2 (by decide)).1⟩

/-! ## The resources of a response -/

/-- C4: the response of a successful `Fetch` (pkg/cache and pkg/cache2) carries
exactly one resource per looked-up name, in the order of the looked-up names; the
looked-up names are the request's `ResourceNames` sorted lexicographically when
that list is non-empty, and the list returned by `All()` when it is empty. -/
theorem Fetch_one_resource_per_name (K : TypeURLs) (mk : String → clusterpb.Cluster)
    (M : Resource → Except String Bytes) (c : cache.Cluster) (c2 : cache2.Cluster)
    (req : DiscoveryRequest) (resp : DiscoveryResponse) (all : List String) :
    (cache.Fetch K M c req = .ok resp →
      List.Forall₂ (fun n a => a.TypeUrl = req.TypeUrl ∧
          ∃ cluster v, c.Retrieve n = (some cluster, v) ∧
            ((req.TypeUrl = K.EndpointType ∨ req.TypeUrl = K.EndpointType3) →
              ∃ la, cluster.LoadAssignment = some la ∧
                M (.endpoints { la with ClusterName := n }) = .ok a.Value) ∧
            (¬ (req.TypeUrl = K.EndpointType ∨ req.TypeUrl = K.EndpointType3) →
              M (.cluster cluster) = .ok a.Value))
        (lookedUp c.All req) resp.Resources) ∧
    (cache2.Fetch K mk M c2 req = .ok resp →
      List.Forall₂ (fun n a => a.TypeUrl = K.ClusterType ∧
          M (.cluster (mk (cache2.GetClusterName (c2.Retrieve n).1))) = .ok a.Value)
        (lookedUp c2.All req) resp.Resources) ∧
    (req.ResourceNames ≠ [] →
      List.Sorted (· ≤ ·) (lookedUp all req) ∧ (lookedUp all req).Perm req.ResourceNames) ∧
    (req.ResourceNames = [] → lookedUp all req = all) := by
  refine ⟨fun h => ?_, fun h => ?_, fun h => ?_, lookedUp_of_eq_nil all req⟩
  · rcases cache.Fetch_eq_ok K M c req resp h with ⟨he, items, hi, hr⟩ | ⟨he, items, hi, hr⟩
    · rw [hr]
      refine forall₂_resources req.TypeUrl (cache.endpointItem M c) _ (fun n it hit => ?_) hi
      obtain ⟨cluster, la, h1, h2, h3⟩ := cache.endpointItem_ok M c n it hit
      exact ⟨rfl, cluster, it.1, h1, fun _ => ⟨la, h2, h3⟩, fun hne => absurd he hne⟩
    · rw [hr]
      refine forall₂_resources req.TypeUrl (cache.clusterItem M c) _ (fun n it hit => ?_) hi
      obtain ⟨cluster, h1, h2⟩ := cache.clusterItem_ok M c n it hit
      exact ⟨rfl, cluster, it.1, h1, fun h => absurd h he, fun _ => h2⟩
  · obtain ⟨_, items, hi, hr⟩ := cache2.Fetch2_eq_ok K mk M c2 req resp h
    rw [hr]
    refine forall₂_resources K.ClusterType (cache2.clusterItem mk M c2) _ (fun n it hit => ?_) hi
    exact ⟨rfl, ((cache2.clusterItem_ok_iff mk M c2 n it).1 hit).2⟩
  · rw [lookedUp_of_ne_nil all req h]
    exact sortStrings_sorted_perm req.ResourceNames

/-- C4, at the sample caches: the names `b`, `a` are served as `a`, `b`, each
with the resource of its own name, by the endpoint branch and the cluster branch
of pkg/cache and by pkg/cache2; a request without names is served the list of
`All()`. -/
theorem Fetch_one_resource_per_name_witness :
    List.Forall₂ (fun n a => a.TypeUrl = (sampleEndpointRequest "" ["b", "a"]).TypeUrl ∧
        ∃ cluster v, cache.sampleCache.Retrieve n = (some cluster, v) ∧
          (((sampleEndpointRequest "" ["b", "a"]).TypeUrl = sampleURLs.EndpointType ∨
              (sampleEndpointRequest "" ["b", "a"]).TypeUrl = sampleURLs.EndpointType3) →
            ∃ la, cluster.LoadAssignment = some la ∧
              sampleMarshal (.endpoints { la with ClusterName := n }) = .ok a.Value) ∧
          (¬ ((sampleEndpointRequest "" ["b", "a"]).TypeUrl = sampleURLs.EndpointType ∨
              (sampleEndpointRequest "" ["b", "a"]).TypeUrl = sampleURLs.EndpointType3) →
            sampleMarshal (.cluster cluster) = .ok a.Value))
      (lookedUp cache.sampleCache.All (sampleEndpointRequest "" ["b", "a"]))
      (DiscoveryResponse.mk "2" [⟨sampleURLs.EndpointType, [97, 0, 10, 0, 0, 1]⟩,
        ⟨sampleURLs.EndpointType, [98, 0, 10, 0, 0, 1]⟩] sampleURLs.EndpointType "").Resources ∧
    List.Forall₂ (fun n a => a.TypeUrl = (sampleClusterRequest "" ["b", "a"]).TypeUrl ∧
        ∃ cluster v, cache.sampleCache.Retrieve n = (some cluster, v) ∧
          (((sampleClusterRequest "" ["b", "a"]).TypeUrl = sampleURLs.EndpointType ∨
              (sampleClusterRequest "" ["b", "a"]).TypeUrl = sampleURLs.EndpointType3) →
            ∃ la, cluster.LoadAssignment = some la ∧
              sampleMarshal (.endpoints { la with ClusterName := n }) = .ok a.Value) ∧
          (¬ ((sampleClusterRequest "" ["b", "a"]).TypeUrl = sampleURLs.EndpointType ∨
              (sampleClusterRequest "" ["b", "a"]).TypeUrl = sampleURLs.EndpointType3) →
            sampleMarshal (.cluster cluster) = .ok a.Value))
      (lookedUp cache.sampleCache.All (sampleClusterRequest "" ["b", "a"]))
      (DiscoveryResponse.mk "2" [⟨sampleURLs.ClusterType, [97]⟩,
        ⟨sampleURLs.ClusterType, [98]⟩] sampleURLs.ClusterType "").Resources ∧
    List.Forall₂ (fun n a => a.TypeUrl = sampleURLs.ClusterType ∧
        sampleMarshal (.cluster (sampleMakeCluster
          (cache2.GetClusterName (cache2.sampleCache.Retrieve n).1))) = .ok a.Value)
      (lookedUp cache2.sampleCache.All (sampleClusterRequest "" ["b", "a"]))
      (DiscoveryResponse.mk "2" [⟨sampleURLs.ClusterType, [97]⟩,
        ⟨sampleURLs.ClusterType, [98]⟩] sampleURLs.ClusterType "").Resources ∧
    (List.Sorted (· ≤ ·) (lookedUp ["x"] (sampleClusterRequest "" ["b", "a"])) ∧
      (lookedUp ["x"] (sampleClusterRequest "" ["b", "a"])).Perm
        (sampleClusterRequest "" ["b", "a"]).ResourceNames) ∧
    lookedUp ["x"] (sampleClusterRequest "" []) = ["x"] :=
  ⟨(Fetch_one_resource_per_name sampleURLs sampleMakeCluster sampleMarshal cache.sampleCache
      cache2.sampleCache (sampleEndpointRequest "" ["b", "a"]) _ ["x"]).1 (by decide),
   (Fetch_one_resource_per_name sampleURLs sampleMakeCluster sampleMarshal cache.sampleCache
      cache2.sampleCache (sampleClusterRequest "" ["b", "a"]) _ ["x"]).1 (by decide),
   (Fetch_one_resource_per_name sampleURLs sampleMakeCluster sampleMarshal cache.sampleCache
      cache2.sampleCache (sampleClusterRequest "" ["b", "a"]) _ ["x"]).2.1 (by decide),
   (Fetch_one_resource_per_name sampleURLs sampleMakeCluster sampleMarshal cache.sampleCache
      cache2.sampleCache (sampleClusterRequest "" ["b", "a"])
      (DiscoveryResponse.mk "" [] "" "") ["x"]).2.2.1 (by decide),
   (Fetch_one_resource_per_name sampleURLs sampleMakeCluster sampleMarshal cache.sampleCache
      cache2.sampleCache (sampleClusterRequest "" [])
      (DiscoveryResponse.mk "" [] "" "") ["x"]).2.2.2 rfl⟩

/-! ## Names that are not in the cache -/

/-- C5 (the code at the failing input): cache2 `Fetch` asked for the name `zz`,
which the cache does not hold, returns a response with one cluster built from
the empty name; and cache2 `Fetch` never returns a not-found error. -/
theorem cache2_Fetch_absent_name :
    cache2.sampleCache.Retrieve "zz" = (none, 0) ∧
    cache2.Fetch sampleURLs sampleMakeCluster sampleMarshal cache2.sampleCache
        (sampleClusterRequest "" ["zz"])
      = .ok { VersionInfo := "0",
              Resources := [{ TypeUrl := sampleURLs.ClusterType, Value := [] }],
              TypeUrl := sampleURLs.ClusterType, Nonce := "" } ∧
    ∀ (K : TypeURLs) (mk : String → clusterpb.Cluster) (M : Resource → Except String Bytes)
      (c : cache2.Cluster) (req : DiscoveryRequest) (n : String),
      cache2.Fetch K mk M c req ≠ .error (.notFound n) := by
  refine ⟨by decide, by decide, ?_⟩
  intro K mk M c req n
  rw [cache2.Fetch2_eq]
  split
  · simp
  · split
    · cases hl : fetchLoop K.ClusterType (cache2.clusterItem mk M c) (lookedUp c.All req) 0 [] with
      | error e =>
        obtain ⟨m, _, hm⟩ := fetchLoop_eq_error _ _ hl
        obtain ⟨s, hs, _⟩ := cache2.clusterItem_error mk M c m e hm
        simp [hs]
      | ok p =>
        simp only
        split <;> simp
    · simp

/-! ## Unsupported type URLs -/

/-- C6: for a type URL that `Fetch` does not handle (pkg/cache: none of
EndpointType, EndpointType3, ClusterType, ClusterType3; pkg/cache2: anything but
ClusterType, EndpointType included) the result is the unrecognized/unsupported
type error and no response, whatever the names, the version and the cache. -/
theorem Fetch_unsupported_type (K : TypeURLs) (mk : String → clusterpb.Cluster)
    (M : Resource → Except String Bytes) (c : cache.Cluster) (c2 : cache2.Cluster)
    (req : DiscoveryRequest) :
    (req.TypeUrl ≠ K.EndpointType → req.TypeUrl ≠ K.EndpointType3 →
      req.TypeUrl ≠ K.ClusterType → req.TypeUrl ≠ K.ClusterType3 →
      cache.Fetch K M c req = .error (.unsupported req.TypeUrl)) ∧
    (req.TypeUrl ≠ K.ClusterType →
      cache2.Fetch K mk M c2 req = .error (.unsupported req.TypeUrl)) ∧
    (req.TypeUrl = K.EndpointType →
      cache2.Fetch K mk M c2 req = .error (.unsupported req.TypeUrl)) := by
  refine ⟨fun h1 h2 h3 h4 => ?_, fun h => ?_, fun h => ?_⟩
  · simp [cache.Fetch, h1, h2, h3, h4]
  · unfold cache2.Fetch
    rw [if_neg h]
    split <;> rfl
  · unfold cache2.Fetch
    rw [if_pos h]

/-- C6, at the sample caches: a listener request is refused by both packages, an
endpoint request by pkg/cache2. -/
theorem Fetch_unsupported_type_witness :
    cache.Fetch sampleURLs sampleMarshal cache.sampleCache
        { sampleClusterRequest "" ["a"] with TypeUrl := sampleURLs.ListenerType }
      = .error (.unsupported sampleURLs.ListenerType) ∧
    cache2.Fetch sampleURLs sampleMakeCluster sampleMarshal cache2.sampleCache
        { sampleClusterRequest "" ["a"] with TypeUrl := sampleURLs.ListenerType }
      = .error (.unsupported sampleURLs.ListenerType) ∧
    cache2.Fetch sampleURLs sampleMakeCluster sampleMarshal cache2.sampleCache
        (sampleEndpointRequest "" ["a"])
      = .error (.unsupported sampleURLs.EndpointType) :=
  ⟨(Fetch_unsupported_type sampleURLs sampleMakeCluster sampleMarshal cache.sampleCache
      cache2.sampleCache
      ({ sampleClusterRequest "" ["a"] with TypeUrl := sampleURLs.ListenerType })).1
      (by decide) (by decide) (by decide) (by decide),
   (Fetch_unsupported_type sampleURLs sampleMakeCluster sampleMarshal cache.sampleCache
      cache2.sampleCache
      ({ sampleClusterRequest "" ["a"] with TypeUrl := sampleURLs.ListenerType })).2.1
      (by decide),
   (Fetch_unsupported_type sampleURLs sampleMakeCluster sampleMarshal cache.sampleCache
      cache2.sampleCache (sampleEndpointRequest "" ["a"])).2.2 rfl⟩

/-! ## The cluster name of served endpoints -/

/-- C7: in the response of a successful pkg/cache `Fetch` of an endpoint type
URL, the i-th resource is the serialization of the load assignment stored for
the i-th looked-up name with `ClusterName` set to that name, whatever name the
stored load assignment carried, and all other fields as stored. -/
theorem cache_Fetch_endpoint_clusterName (K : TypeURLs) (M : Resource → Except String Bytes)
    (c : cache.Cluster) (req : DiscoveryRequest) (resp : DiscoveryResponse)
    (ht : req.TypeUrl = K.EndpointType ∨ req.TypeUrl = K.EndpointType3)
    (h : cache.Fetch K M c req = .ok resp) :
    List.Forall₂ (fun n a =>
        ∃ cluster v la, c.Retrieve n = (some cluster, v) ∧ cluster.LoadAssignment = some la ∧
          M (.endpoints { ClusterName := n, Endpoints := la.Endpoints,
                          NamedEndpoints := la.NamedEndpoints, Policy := la.Policy })
            = .ok a.Value)
      (lookedUp c.All req) resp.Resources := by
  rcases cache.Fetch_eq_ok K M c req resp h with ⟨_, items, hi, hr⟩ | ⟨he, _⟩
  · rw [hr]
    refine forall₂_resources req.TypeUrl (cache.endpointItem M c) _ (fun n it hit => ?_) hi
    obtain ⟨cluster, la, h1, h2, h3⟩ := cache.endpointItem_ok M c n it hit
    exact ⟨cluster, it.1, la, h1, h2, h3⟩
  · exact absurd ht he

/-- C7, at the sample cache: the stored load assignments carry the names "" and
"other"; the served ones carry `a` and `b`. -/
theorem cache_Fetch_endpoint_clusterName_witness :
    List.Forall₂ (fun n a =>
        ∃ cluster v la, cache.sampleCache.Retrieve n = (some cluster, v) ∧
          cluster.LoadAssignment = some la ∧
          sampleMarshal (.endpoints
            { ClusterName := n, Endpoints := la.Endpoints,
              NamedEndpoints := la.NamedEndpoints, Policy := la.Policy })
            = .ok a.Value)
      (lookedUp cache.sampleCache.All (sampleEndpointRequest "" []))
      (DiscoveryResponse.mk "2" [⟨sampleURLs.EndpointType, [97, 0, 10, 0, 0, 1]⟩,
        ⟨sampleURLs.EndpointType, [98, 0, 10, 0, 0, 1]⟩] sampleURLs.EndpointType "").Resources :=
  cache_Fetch_endpoint_clusterName sampleURLs sampleMarshal cache.sampleCache
    (sampleEndpointRequest "" []) _ (Or.inl rfl) (by decide)

/-! ## The empty client version -/

/-- C8: a ClusterType request with the empty `VersionInfo` is never answered
with Skip by cache2 `Fetch`; when marshalling succeeds it is answered with a
response that carries one resource for every looked-up name. -/
theorem cache2_Fetch_empty_version (K : TypeURLs) (mk : String → clusterpb.Cluster)
    (M : Resource → Except String Bytes) (c : cache2.Cluster) (req : DiscoveryRequest)
    (hne : K.EndpointType ≠ K.ClusterType) (ht : req.TypeUrl = K.ClusterType)
    (hv : req.VersionInfo = "") :
    cache2.Fetch K mk M c req ≠ .error .SkipFetchError ∧
    ((∀ n ∈ lookedUp c.All req,
        ∃ data, M (.cluster (mk (cache2.GetClusterName (c.Retrieve n).1))) = .ok data) →
      ∃ resp, cache2.Fetch K mk M c req = .ok resp ∧
        List.Forall₂ (fun n a => a.TypeUrl = K.ClusterType ∧
            M (.cluster (mk (cache2.GetClusterName (c.Retrieve n).1))) = .ok a.Value)
          (lookedUp c.All req) resp.Resources) := by
  rw [cache2.Fetch_cluster K mk M c req hne ht, hv]
  constructor
  · cases hl : fetchLoop K.ClusterType (cache2.clusterItem mk M c) (lookedUp c.All req) 0 [] with
    | error e =>
      obtain ⟨m, _, hm⟩ := fetchLoop_eq_error _ _ hl
      obtain ⟨s, hs, _⟩ := cache2.clusterItem_error mk M c m e hm
      simp [hs]
    | ok p => simp [FormatUint_ne_empty]
  · intro hall
    obtain ⟨items, hi, hl⟩ := cache2.fetchLoop_of_marshal_ok K mk M c (lookedUp c.All req) hall
    rw [hl]
    refine ⟨{ VersionInfo := FormatUint (maxVersion ((lookedUp c.All req).map
                (fun n => (c.Retrieve n).2))),
              Resources := items.map (fun it => { TypeUrl := K.ClusterType, Value := it.2 }),
              TypeUrl := K.ClusterType, Nonce := "" },
      by simp only [FormatUint_ne_empty, if_false], ?_⟩
    refine forall₂_resources K.ClusterType (cache2.clusterItem mk M c) _ (fun n it hit => ?_) hi
    exact ⟨rfl, ((cache2.clusterItem_ok_iff mk M c n it).1 hit).2⟩

/-- C8, at the sample cache: the empty version gets both clusters. -/
theorem cache2_Fetch_empty_version_witness :
    cache2.Fetch sampleURLs sampleMakeCluster sampleMarshal cache2.sampleCache
      (sampleClusterRequest "" []) ≠ .error .SkipFetchError :=
  (cache2_Fetch_empty_version sampleURLs sampleMakeCluster sampleMarshal cache2.sampleCache
    (sampleClusterRequest "" []) (by decide) rfl rfl).1

/-! ## The stream nonce -/

theorem server.wrapInt64_succ (x : Int) :
    server.wrapInt64 (server.wrapInt64 x + 1) = server.wrapInt64 (x + 1) := by
  unfold server.wrapInt64; omega

theorem server.wrapInt64_of_lt (k : Nat) (h : k < 2 ^ 63) : server.wrapInt64 (k : Int) = k := by
  unfold server.wrapInt64; omega

theorem Stamped_nil (count : Nat) : Stamped count [] := by
  intro k nonce h
  simp at h

theorem Stamped_cons (count : Nat) (x : String) (xs : List String) :
    Stamped count (x :: xs) ↔
      x = FormatInt (server.wrapInt64 ((count : Int) + 1)) ∧ Stamped (count + 1) xs := by
  constructor
  · intro h
    refine ⟨by simpa using h 0 x (by simp), fun k nonce hk => ?_⟩
    rw [h (k + 1) nonce (by simpa using hk)]
    congr 2
    push_cast
    ring
  · rintro ⟨hx, hxs⟩ k nonce hk
    cases k with
    | zero =>
      simp only [List.getElem?_cons_zero, Option.some.injEq] at hk
      rw [← hk, hx]
      simp
    | succ k =>
      simp only [List.getElem?_cons_succ] at hk
      rw [hxs k nonce hk]
      congr 2
      push_cast
      ring

theorem Stamped_append (count : Nat) (l₁ l₂ : List String) :
    Stamped count (l₁ ++ l₂) ↔ Stamped count l₁ ∧ Stamped (count + l₁.length) l₂ := by
  induction l₁ generalizing count with
  | nil => simp [Stamped_nil]
  | cons x xs ih =>
    have e : count + 1 + xs.length = count + (xs.length + 1) := by omega
    simp only [List.cons_append, List.length_cons, Stamped_cons, ih (count + 1), e, and_assoc]

theorem Stamped_getElem? (count : Nat) (l : List String) (h : Stamped count l)
    (k : Nat) (x : String) (hk : l[k]? = some x) :
    x = FormatInt (server.wrapInt64 ((count : Int) + k + 1)) :=
  h k x hk

theorem server.sent_append (a b : List server.Effect) :
    server.sent (a ++ b) = server.sent a ++ server.sent b := by
  induction a with
  | nil => rfl
  | cons e rest ih => cases e <;> simp [server.sent, ih]

theorem server2.sent2_append (a b : List server2.Effect) :
    server2.sent (a ++ b) = server2.sent a ++ server2.sent b := by
  induction a with
  | nil => rfl
  | cons e rest ih => cases e <;> simp [server2.sent, ih]

theorem server.sent_deferred (s : server.Server) (values : server.watches) :
    server.sent (server.deferred s values) = [] := by
  unfold server.deferred server.watches.Cancel
  cases values.endpointCancel <;> cases values.clusterCancel <;> cases s.callbacks <;>
    simp [server.sent]

/-- The closure `send` of `process` hands at most one response to the stream,
stamped with the incremented counter. -/
theorem server.send_stamped (s : server.Server) (st : server.State) (resp : server.Response)
    (typeURL : String) (sendErr : Option String) (count : Nat)
    (hc : st.streamNonce = server.wrapInt64 count) :
    Stamped count ((server.sent (server.send s st resp typeURL sendErr).2.2.2).map (·.Nonce)) ∧
    (server.send s st resp typeURL sendErr).2.2.1.streamNonce
      = server.wrapInt64 ((count + (server.sent
          (server.send s st resp typeURL sendErr).2.2.2).length : Nat)) := by
  unfold server.send
  cases server.createResponse s.MarshalResource (some resp) typeURL with
  | error e => simpa [server.sent, Stamped_nil, Stamped_cons] using hc
  | ok out =>
    cases hcb : s.callbacks <;>
      simp [server.sent, Stamped_nil, Stamped_cons, hc, server.wrapInt64_succ]

/-- The request hook and the watch switch hand nothing to the stream and leave
the counter alone. -/
theorem server.handleRequest_sent (s : server.Server) (st : server.State)
    (req : DiscoveryRequest) (nonce : String) (hookErr : Option String)
    (watch : Option Nat × Option Nat) :
    match server.handleRequest s st req nonce hookErr watch with
    | .next st' effects => server.sent effects = [] ∧ st'.streamNonce = st.streamNonce
    | .done _ effects => server.sent effects = [] := by
  unfold server.handleRequest
  cases s.callbacks <;> cases st.values.endpointCancel <;> cases st.values.clusterCancel <;>
    (simp only []; split_ifs <;> simp [server.sent, server.sent_append])

/-- One pass through the `select` of `process` stamps what it sends. -/
theorem server.processStep_stamped (s : server.Server) (defaultTypeURL : String)
    (st : server.State) (ev : server.Event) (count : Nat)
    (hc : st.streamNonce = server.wrapInt64 count) :
    match server.processStep s defaultTypeURL st ev with
    | .next st' effects =>
      Stamped count ((server.sent effects).map (·.Nonce)) ∧
        st'.streamNonce = server.wrapInt64 ((count + (server.sent effects).length : Nat))
    | .done _ effects => Stamped count ((server.sent effects).map (·.Nonce)) := by
  cases ev with
  | ctxDone => simp [server.processStep, server.sent, Stamped_nil, Stamped_cons]
  | endpoints msg sendErr =>
    unfold server.processStep
    cases st.values.endpoints with
    | none => simpa [server.sent, Stamped_nil, Stamped_cons] using hc
    | some ch =>
      cases msg with
      | none => simp [server.sent, Stamped_nil, Stamped_cons]
      | some resp =>
        have h := server.send_stamped s st resp s.K.EndpointType sendErr count hc
        rcases hs : server.send s st resp s.K.EndpointType sendErr with ⟨nonce, err, st', eff⟩
        rw [hs] at h
        simp only [hs]
        cases err with
        | none => simpa using h
        | some e => simpa using h.1
  | clusters msg sendErr =>
    unfold server.processStep
    cases st.values.clusters with
    | none => simpa [server.sent, Stamped_nil, Stamped_cons] using hc
    | some ch =>
      cases msg with
      | none => simp [server.sent, Stamped_nil, Stamped_cons]
      | some resp =>
        have h := server.send_stamped s st resp s.K.ClusterType sendErr count hc
        rcases hs : server.send s st resp s.K.ClusterType sendErr with ⟨nonce, err, st', eff⟩
        rw [hs] at h
        simp only [hs]
        cases err with
        | none => simpa using h
        | some e => simpa using h.1
  | request msg hookErr watch =>
    unfold server.processStep
    rcases msg with _ | _ | req
    · simp [server.sent, Stamped_nil, Stamped_cons]
    · simp [server.sent, Stamped_nil, Stamped_cons]
    · have key : ∀ (st₁ : server.State) (r : DiscoveryRequest) (nonce : String),
          st₁.streamNonce = st.streamNonce →
          match server.handleRequest s st₁ r nonce hookErr watch with
          | .next st' effects =>
            Stamped count ((server.sent effects).map (·.Nonce)) ∧
              st'.streamNonce = server.wrapInt64 ((count + (server.sent effects).length : Nat))
          | .done _ effects => Stamped count ((server.sent effects).map (·.Nonce)) := by
        intro st₁ r nonce h1
        have h := server.handleRequest_sent s st₁ r nonce hookErr watch
        cases hh : server.handleRequest s st₁ r nonce hookErr watch with
        | next st' effects =>
          rw [hh] at h
          simp [h.1, h.2, h1, hc, Stamped_nil, Stamped_cons]
        | done err effects =>
          rw [hh] at h
          simp [h, Stamped_nil, Stamped_cons]
      simp only []
      split_ifs
      · simp [server.sent, Stamped_nil, Stamped_cons]
      · exact key _ _ _ rfl
      · exact key _ _ _ rfl
      · exact key _ _ _ rfl

/-- The loop of `process` keeps the responses stamped. -/
theorem server.processLoop_stamped (s : server.Server) (defaultTypeURL : String)
    (events : List server.Event) (st : server.State) (trace : List server.Effect)
    (hc : st.streamNonce = server.wrapInt64 ((server.sent trace).length : Nat))
    (ht : Stamped 0 ((server.sent trace).map (·.Nonce))) :
    Stamped 0 ((server.sent
      (server.processLoop s defaultTypeURL events st trace).trace).map (·.Nonce)) := by
  induction events generalizing st trace with
  | nil => exact ht
  | cons ev rest ih =>
    unfold server.processLoop
    have h := server.processStep_stamped s defaultTypeURL st ev _ hc
    cases hs : server.processStep s defaultTypeURL st ev with
    | next st' effects =>
      rw [hs] at h
      simp only []
      apply ih
      · rw [h.2, server.sent_append, List.length_append]
      · rw [server.sent_append, List.map_append, Stamped_append]
        exact ⟨ht, by simpa using h.1⟩
    | done err effects =>
      rw [hs] at h
      simp only [server.sent_append, server.sent_deferred, List.append_nil, List.map_append,
        Stamped_append]
      exact ⟨ht, by simpa using h⟩

theorem server2.send2_stamped (st : server2.State) (resp : xdspb2.DiscoveryResponse)
    (Send : xdspb2.DiscoveryResponse → Option String) (count : Nat)
    (hc : st.streamNonce = server.wrapInt64 count) :
    Stamped count ((server2.sent (server2.send st resp Send).2.2).map (·.Nonce)) ∧
    (server2.send st resp Send).2.1.streamNonce = server.wrapInt64 ((count + 1 : Nat)) ∧
    (server2.sent (server2.send st resp Send).2.2).length = 1 := by
  simp [server2.send, server2.sent, Stamped_nil, Stamped_cons, hc, server.wrapInt64_succ]

theorem server2.fetchAndSend_stamped (s : server2.Server2) (st : server2.State)
    (req : xdspb2.DiscoveryRequest)
    (Fetch : DiscoveryRequest → Except FetchError DiscoveryResponse)
    (Send : xdspb2.DiscoveryResponse → Option String) (count : Nat)
    (hc : st.streamNonce = server.wrapInt64 count) :
    server2.StepStamped count (server2.fetchAndSend s st req Fetch Send) := by
  unfold server2.fetchAndSend
  cases hf : Fetch (s.DiscoveryRequestToV3 req) with
  | error e => simp [hf, server2.StepStamped, server2.sent, Stamped_nil, Stamped_cons]
  | ok resp =>
    simp only [hf]
    split_ifs
    · simpa [server2.StepStamped, server2.sent, Stamped_nil, Stamped_cons] using hc
    · have h := server2.send2_stamped st (s.DiscoveryResponseToV2 resp) Send count hc
      rcases hs : server2.send st (s.DiscoveryResponseToV2 resp) Send with ⟨err, st', eff⟩
      rw [hs] at h
      cases err with
      | none =>
        simp only [server2.StepStamped, server2.sent, server2.setVersion]
        exact ⟨h.1, by rw [h.2.1, h.2.2]⟩
      | some e =>
        simp only [server2.StepStamped, server2.sent]
        exact h.1

theorem server2.tickRound_stamped (s : server2.Server2) (typeUrl : String)
    (Fetch : DiscoveryRequest → Except FetchError DiscoveryResponse)
    (Send : xdspb2.DiscoveryResponse → Option String) (st : server2.State) (count : Nat)
    (hc : st.streamNonce = server.wrapInt64 count) :
    server2.StepStamped count (server2.tickRound s typeUrl Fetch Send st) := by
  unfold server2.tickRound
  simp only []
  generalize (DiscoveryRequest.mk (st.versionInfo typeUrl) none [] typeUrl "") = req
  cases hf : Fetch req with
  | error e => simp [server2.StepStamped, server2.sent, Stamped_nil, Stamped_cons]
  | ok resp =>
    have h := server2.send2_stamped st (s.DiscoveryResponseToV2 resp) Send count hc
    rcases hs : server2.send st (s.DiscoveryResponseToV2 resp) Send with ⟨err, st', eff⟩
    rw [hs] at h
    simp only [hs]
    cases err with
    | none =>
      simp only [server2.StepStamped, server2.sent, server2.setVersion]
      exact ⟨h.1, by rw [h.2.1, h.2.2]⟩
    | some e =>
      simp only [server2.StepStamped, server2.sent]
      exact h.1

theorem server2.andThen_stamped (first : server2.Step) (second : server2.State → server2.Step)
    (count : Nat) (h₁ : server2.StepStamped count first)
    (h₂ : ∀ (st : server2.State) (c : Nat),
      st.streamNonce = server.wrapInt64 c → server2.StepStamped c (second st)) :
    server2.StepStamped count (first.andThen second) := by
  cases first with
  | done err effects => exact h₁
  | next st effects =>
    have h := h₂ st _ h₁.2
    unfold server2.Step.andThen
    simp only []
    cases hs : second st with
    | done err effects2 =>
      rw [hs] at h
      simp only [server2.StepStamped, server2.sent2_append, List.map_append, Stamped_append,
        List.length_map]
      exact ⟨h₁.1, h⟩
    | next st' effects2 =>
      rw [hs] at h
      simp only [server2.StepStamped, server2.sent2_append, List.map_append, Stamped_append,
        List.length_map, List.length_append]
      exact ⟨⟨h₁.1, h.1⟩, by rw [h.2]; congr 2; omega⟩

/-- One pass through the `select` of `discoveryProcess` stamps what it sends. -/
theorem server2.discoveryStep_stamped (s : server2.Server2) (defaultTypeURL : String)
    (st : server2.State) (ev : server2.Event) (count : Nat)
    (hc : st.streamNonce = server.wrapInt64 count) :
    server2.StepStamped count (server2.discoveryStep s defaultTypeURL st ev) := by
  cases ev with
  | ctxDone => simp [server2.discoveryStep, server2.StepStamped, server2.sent, Stamped_nil, Stamped_cons]
  | request msg Fetch Send =>
    unfold server2.discoveryStep
    rcases msg with _ | _ | req
    · simp [server2.StepStamped, server2.sent, Stamped_nil, Stamped_cons]
    · simp [server2.StepStamped, server2.sent, Stamped_nil, Stamped_cons]
    · simp only []
      split_ifs
      · simp [server2.StepStamped, server2.sent, Stamped_nil, Stamped_cons]
      · exact server2.fetchAndSend_stamped s _ _ Fetch Send count hc
      · exact server2.fetchAndSend_stamped s _ _ Fetch Send count hc
      · exact server2.fetchAndSend_stamped s _ _ Fetch Send count hc
  | tick Fetch Send =>
    unfold server2.discoveryStep
    refine server2.andThen_stamped _ _ count
      (server2.andThen_stamped _ _ count
        (server2.andThen_stamped _ _ count
          (server2.tickRound_stamped s _ Fetch Send st count hc) ?_) ?_) ?_
    all_goals exact fun st' c h => server2.tickRound_stamped s _ Fetch Send st' c h

/-- The loop of `discoveryProcess` keeps the responses stamped. -/
theorem server2.discoveryLoop_stamped (s : server2.Server2) (defaultTypeURL : String)
    (events : List server2.Event) (st : server2.State) (trace : List server2.Effect)
    (hc : st.streamNonce = server.wrapInt64 ((server2.sent trace).length : Nat))
    (ht : Stamped 0 ((server2.sent trace).map (·.Nonce))) :
    Stamped 0 ((server2.sent
      (server2.discoveryLoop s defaultTypeURL events st trace).trace).map (·.Nonce)) := by
  induction events generalizing st trace with
  | nil => exact ht
  | cons ev rest ih =>
    unfold server2.discoveryLoop
    have h := server2.discoveryStep_stamped s defaultTypeURL st ev _ hc
    cases hs : server2.discoveryStep s defaultTypeURL st ev with
    | next st' effects =>
      rw [hs] at h
      simp only []
      apply ih
      · rw [h.2, server2.sent2_append, List.length_append]
      · rw [server2.sent2_append, List.map_append, Stamped_append]
        exact ⟨ht, by simpa using h.1⟩
    | done err effects =>
      rw [hs] at h
      simp only [server2.sent2_append, List.map_append, Stamped_append]
      exact ⟨ht, by simpa using h⟩

/-- Every response `process` hands to the stream carries the rendering of the
wrapped `int64` counter. -/
theorem server.process_stamped (s : server.Server) (defaultTypeURL : String)
    (events : List server.Event) :
    Stamped 0 ((server.sent (server.process s defaultTypeURL events).trace).map (·.Nonce)) := by
  unfold server.process
  simp only []
  by_cases h : s.callbacks = true ∧ s.openErr.isSome = true
  · rw [if_pos h]
    cases s.callbacks <;> simp [server.sent_append, server.sent_deferred, server.sent, Stamped_nil, Stamped_cons]
  · rw [if_neg h]
    apply server.processLoop_stamped
    · cases s.callbacks <;> simp [server.sent, server.initialState, server.wrapInt64]
    · cases s.callbacks <;> simp [server.sent, Stamped_nil, Stamped_cons]

/-- Every response `discoveryProcess` hands to the stream carries the rendering
of the wrapped `int64` counter. -/
theorem server2.discoveryProcess_stamped (s : server2.Server2) (defaultTypeURL : String)
    (events : List server2.Event) :
    Stamped 0 ((server2.sent
      (server2.discoveryProcess s defaultTypeURL events).trace).map (·.Nonce)) := by
  unfold server2.discoveryProcess
  apply server2.discoveryLoop_stamped
  · simp [server2.sent, server2.initialState, server.wrapInt64]
  · simp [server2.sent, Stamped_nil, Stamped_cons]

/-- Deliveries on an open clusters channel whose resources are already marshaled,
with `Send` succeeding, are all handed to the stream. -/
theorem server.processLoop_replicate_clusters (s : server.Server) (defaultTypeURL : String)
    (resp : server.Response) (hm : resp.ResourceMarshaled = true) (n : Nat)
    (st : server.State) (trace : List server.Effect) (hch : st.values.clusters.isSome = true) :
    (server.sent (server.processLoop s defaultTypeURL
        (List.replicate n (.clusters (some resp) none)) st trace).trace).length
      = (server.sent trace).length + n := by
  induction n generalizing st trace with
  | zero => rfl
  | succ n ih =>
    obtain ⟨ch, hch'⟩ := Option.isSome_iff_exists.1 hch
    rw [List.replicate_succ]
    unfold server.processLoop
    simp only [server.processStep, hch', server.send, server.createResponse, hm, if_true,
      Option.map_none']
    rw [ih _ _ (by simp), server.sent_append, List.length_append]
    cases s.callbacks <;> simp [server.sent] <;> omega

/-- The first request of the sample run arms the cluster watch. -/
theorem server.sample_first_request (rest : List server.Event) :
    server.process sampleServer sampleURLs.ClusterType
        (.request (some (some (sampleClusterRequest "" []))) none (some 0, some 0) :: rest)
      = server.processLoop sampleServer sampleURLs.ClusterType rest
          { streamNonce := 0,
            values := { endpoints := none, clusters := some 0, endpointCancel := none,
                        clusterCancel := some 0, endpointNonce := "", clusterNonce := "" },
            node := { Id := "" } }
          [.OnStreamOpen 1 sampleURLs.ClusterType,
           .OnStreamRequest 1 { sampleClusterRequest "" [] with Node := some { Id := "" } },
           .CreateWatch { sampleClusterRequest "" [] with Node := some { Id := "" } }] := by
  rfl

/-! ## Nonces on one stream -/

/-- On a stream that has handed 2^63 responses to `Send`, the last of them
carries a negative nonce. -/
theorem Stamped_overflow (nonces : List String) (h : Stamped 0 nonces)
    (hlen : 2 ^ 63 ≤ nonces.length) :
    ∃ nonce, nonces[2 ^ 63 - 1]? = some nonce ∧
      nonce = "-9223372036854775808" ∧ nonce ≠ FormatInt (2 ^ 63) := by
  have hlt : 2 ^ 63 - 1 < nonces.length := by omega
  refine ⟨nonces[2 ^ 63 - 1], List.getElem?_eq_getElem hlt, ?_⟩
  have hn := Stamped_getElem? 0 nonces h (2 ^ 63 - 1) nonces[2 ^ 63 - 1]
    (List.getElem?_eq_getElem hlt)
  have hw : server.wrapInt64 (((0 : Nat) : Int) + ((2 ^ 63 - 1 : Nat) : Int) + 1)
      = -9223372036854775808 := by decide
  rw [hw] at hn
  rw [hn]
  exact ⟨by decide, by decide⟩

/-- C9 (as stated, refuted): the stream nonce is an `int64`; on a stream that has
delivered 2^63 - 1 responses the next response, the 2^63-th, carries the nonce
-9223372036854775808, not the rendering of 2^63. -/
theorem stream_nonce_counterexample :
    ∃ nonce, ((server.sent (server.process sampleServer sampleURLs.ClusterType
        (.request (some (some (sampleClusterRequest "" []))) none (some 0, some 0) ::
          List.replicate (2 ^ 63) (.clusters (some (sampleDelivery "2")) none))).trace).map
            (·.Nonce))[2 ^ 63 - 1]? = some nonce ∧
      nonce = "-9223372036854775808" ∧ nonce ≠ FormatInt (2 ^ 63) :=
  Stamped_overflow _ (server.process_stamped _ _ _) (by
    rw [List.length_map, server.sample_first_request,
      server.processLoop_replicate_clusters _ _ _ rfl _ _ _ (by rfl)]
    exact Nat.le_add_left _ _)

/-- C9 (amended): on one stream driven by `process` (v3) or `discoveryProcess`
(v2), for every sequence of events and every k below 2^63, the k-th response
handed to `stream.Send` carries the nonce that is the decimal rendering of k; the
nonces start at 1 and increase by one from each response to the next. -/
theorem stream_nonces (s : server.Server) (s2 : server2.Server2) (defaultTypeURL : String)
    (events : List server.Event) (events2 : List server2.Event) (k : Nat)
    (h0 : 0 < k) (hk : k < 2 ^ 63) :
    (∀ resp, (server.sent (server.process s defaultTypeURL events).trace)[k - 1]? = some resp →
      resp.Nonce = FormatInt k) ∧
    (∀ resp, (server2.sent (server2.discoveryProcess s2 defaultTypeURL events2).trace)[k - 1]?
        = some resp →
      resp.Nonce = FormatInt k) := by
  have hw : server.wrapInt64 (((0 : Nat) : Int) + ((k - 1 : Nat) : Int) + 1) = k := by
    rw [← server.wrapInt64_of_lt k hk]
    congr 1
    omega
  constructor
  · intro resp h
    have hn := Stamped_getElem? 0 _ (server.process_stamped s defaultTypeURL events) (k - 1)
      resp.Nonce (by rw [List.getElem?_map, h]; rfl)
    rw [hn, hw]
  · intro resp h
    have hn := Stamped_getElem? 0 _ (server2.discoveryProcess_stamped s2 defaultTypeURL events2)
      (k - 1) resp.Nonce (by rw [List.getElem?_map, h]; rfl)
    rw [hn, hw]

/-- C9 (amended), at sample runs: the second response of the v3 run and of the
v2 run carry the nonce "2". -/
theorem stream_nonces_witness :
    (DiscoveryResponse.mk "3" [⟨sampleURLs.ClusterType, [97]⟩, ⟨sampleURLs.ClusterType, [98]⟩]
        sampleURLs.ClusterType "2").Nonce = FormatInt (2 : Nat) ∧
    (xdspb2.DiscoveryResponse.mk "2"
        [⟨sampleURLs.ClusterType, [97]⟩, ⟨sampleURLs.ClusterType, [98]⟩]
        sampleURLs.ClusterType "2").Nonce = FormatInt (2 : Nat) :=
  ⟨(stream_nonces sampleServer sampleServer2 sampleURLs.ClusterType sampleEvents sampleEvents2 2
      (by decide) (by decide)).1 _ (by decide),
   (stream_nonces sampleServer sampleServer2 sampleURLs.ClusterType sampleEvents sampleEvents2 2
      (by decide) (by decide)).2 _ (by decide)⟩

/-! ## Requests and watches -/

/-- A request that is not refused for a missing type URL is handled, resolved,
by the hook and the watch switch. -/
theorem server.processStep_request (s : server.Server) (defaultTypeURL : String)
    (st : server.State) (req : DiscoveryRequest) (hookErr : Option String)
    (watch : Option Nat × Option Nat)
    (hads : ¬ (defaultTypeURL = s.K.AnyType ∧ req.TypeUrl = "")) :
    server.processStep s defaultTypeURL st (.request (some (some req)) hookErr watch)
      = server.handleRequest s { st with node := req.Node.getD st.node }
          (server.resolve defaultTypeURL st req) req.ResponseNonce hookErr watch := by
  have hn : (match req.Node with | some n => n | none => st.node) = req.Node.getD st.node := by
    cases req.Node <;> rfl
  simp only [server.processStep, server.resolve, hn]
  by_cases h1 : defaultTypeURL = s.K.AnyType
  · have h2 : ¬ req.TypeUrl = "" := fun h => hads ⟨h1, h⟩
    simp [h1, h2]
  · by_cases h2 : req.TypeUrl = ""
    · simp [h1, h2]
    · simp [h1, h2]

/-- C10: in `process`, for an inbound request that resolves to the endpoint or
the cluster type URL and passes the request hook, a watch is created through the
cache, and stored in the slots of that type, exactly when the nonce slot of the
type is empty or equals the request's `ResponseNonce`; for a stale nonce no watch
is created, no cancel handle is invoked, no response is sent, and the watch and
nonce slots are unchanged. -/
theorem process_request_watch (s : server.Server) (defaultTypeURL : String)
    (st : server.State) (req : DiscoveryRequest) (hookErr : Option String)
    (watch : Option Nat × Option Nat)
    (hne : s.K.EndpointType ≠ s.K.ClusterType)
    (hads : ¬ (defaultTypeURL = s.K.AnyType ∧ req.TypeUrl = ""))
    (hhook : s.callbacks = false ∨ hookErr = none) :
    ∃ st' effects,
      server.processStep s defaultTypeURL st (.request (some (some req)) hookErr watch)
        = .next st' effects ∧
      ((server.resolve defaultTypeURL st req).TypeUrl = s.K.EndpointType →
        (server.Effect.CreateWatch (server.resolve defaultTypeURL st req) ∈ effects ↔
          (st.values.endpointNonce = "" ∨ st.values.endpointNonce = req.ResponseNonce)) ∧
        ((st.values.endpointNonce = "" ∨ st.values.endpointNonce = req.ResponseNonce) →
          st'.values = { st.values with endpoints := watch.1, endpointCancel := watch.2 }) ∧
        (¬ (st.values.endpointNonce = "" ∨ st.values.endpointNonce = req.ResponseNonce) →
          st'.values = st.values ∧ ∀ e ∈ effects, e.touchesWatchOrStream = false)) ∧
      ((server.resolve defaultTypeURL st req).TypeUrl = s.K.ClusterType →
        (server.Effect.CreateWatch (server.resolve defaultTypeURL st req) ∈ effects ↔
          (st.values.clusterNonce = "" ∨ st.values.clusterNonce = req.ResponseNonce)) ∧
        ((st.values.clusterNonce = "" ∨ st.values.clusterNonce = req.ResponseNonce) →
          st'.values = { st.values with clusters := watch.1, clusterCancel := watch.2 }) ∧
        (¬ (st.values.clusterNonce = "" ∨ st.values.clusterNonce = req.ResponseNonce) →
          st'.values = st.values ∧ ∀ e ∈ effects, e.touchesWatchOrStream = false)) := by
  rw [server.processStep_request s defaultTypeURL st req hookErr watch hads]
  have hh : ¬ (s.callbacks = true ∧ hookErr.isSome = true) := by
    rintro ⟨h1, h2⟩
    rcases hhook with h | h
    · rw [h] at h1; exact Bool.false_ne_true h1
    · rw [h] at h2; exact Bool.false_ne_true h2
  generalize server.resolve defaultTypeURL st req = r
  unfold server.handleRequest
  simp only [hh, if_false]
  by_cases he : r.TypeUrl = s.K.EndpointType
  · have hc : ¬ r.TypeUrl = s.K.ClusterType := by rw [he]; exact hne
    by_cases hf : st.values.endpointNonce = "" ∨ st.values.endpointNonce = req.ResponseNonce
    · refine ⟨_, _, by rw [if_pos ⟨he, hf⟩], fun _ => ⟨?_, fun _ => rfl, fun h => absurd hf h⟩,
        fun h => absurd h hc⟩
      simp [hf]
    · refine ⟨{ st with node := req.Node.getD st.node }, _,
        by rw [if_neg (fun h => hf h.2), if_neg (fun h => hc h.1)],
        fun _ => ⟨?_, fun h => absurd h hf, fun _ => ⟨rfl, ?_⟩⟩, fun h => absurd h hc⟩
      · cases s.callbacks <;> simp [hf]
      · cases s.callbacks <;> simp [server.Effect.touchesWatchOrStream]
  · by_cases hc : r.TypeUrl = s.K.ClusterType
    · by_cases hf : st.values.clusterNonce = "" ∨ st.values.clusterNonce = req.ResponseNonce
      · refine ⟨_, _, by rw [if_neg (fun h => he h.1), if_pos ⟨hc, hf⟩], fun h => absurd h he,
          fun _ => ⟨?_, fun _ => rfl, fun h => absurd hf h⟩⟩
        simp [hf]
      · refine ⟨{ st with node := req.Node.getD st.node }, _,
          by rw [if_neg (fun h => he h.1), if_neg (fun h => hf h.2)],
          fun h => absurd h he, fun _ => ⟨?_, fun h => absurd h hf, fun _ => ⟨rfl, ?_⟩⟩⟩
        · cases s.callbacks <;> simp [hf]
        · cases s.callbacks <;> simp [server.Effect.touchesWatchOrStream]
    · exact ⟨_, _, by rw [if_neg (fun h => he h.1), if_neg (fun h => hc h.1)],
        fun h => absurd h he, fun h => absurd h hc⟩


/-- C10, at a sample stream that has sent the cluster response with nonce "1":
a cluster request that answers nonce "0" is stale; the step creates no watch,
invokes no cancel handle, sends nothing and leaves the slots as they were. -/
theorem process_request_watch_witness :
    ∃ st' effects,
      server.processStep sampleServer sampleURLs.ClusterType sampleState
          (.request (some (some { sampleClusterRequest "2" [] with ResponseNonce := "0" })) none
            (some 2, some 2))
        = .next st' effects ∧
      st'.values = sampleState.values ∧ ∀ e ∈ effects, e.touchesWatchOrStream = false := by
  obtain ⟨st', effects, h, _, hc⟩ :=
    process_request_watch sampleServer sampleURLs.ClusterType sampleState
      { sampleClusterRequest "2" [] with ResponseNonce := "0" } none (some 2, some 2)
      (by decide) (by decide) (Or.inr rfl)
  exact ⟨st', effects, h, (hc (by decide)).2.2 (by decide)⟩

/-! ## The watches of a stream -/

theorem server.trackWatches_append (w : Option Nat × Option Nat)
    (live : List (String × Option Nat)) (a b : List server.Effect) :
    server.trackWatches w live (a ++ b)
      = server.trackWatches w (server.trackWatches w live a) b := by
  simp [server.trackWatches, List.foldl_append]

theorem server.trackWatches_inert (w : Option Nat × Option Nat)
    (live : List (String × Option Nat)) (effects : List server.Effect)
    (h : ∀ e ∈ effects, e.isWatchCall = false) :
    server.trackWatches w live effects = live := by
  induction effects generalizing live with
  | nil => rfl
  | cons e rest ih =>
    have he := h e (List.mem_cons_self _ _)
    have h1 : server.trackOne w live e = live := by
      cases e <;> simp_all [server.trackOne, server.Effect.isWatchCall]
    show List.foldl (server.trackOne w) (server.trackOne w live e) rest = live
    rw [h1]
    exact ih live (fun x hx => h x (List.mem_cons_of_mem _ hx))

theorem server.trackWatches_cancelCall (w : Option Nat × Option Nat)
    (live : List (String × Option Nat)) (slot : Option Nat) :
    server.trackWatches w live (server.cancelCall slot)
      = live.filter (fun x => x.2 ≠ slot ∨ slot = none) := by
  cases slot with
  | none => simp [server.trackWatches, server.cancelCall]
  | some h => simp [server.trackWatches, server.cancelCall, server.trackOne]

theorem server.send_inert (s : server.Server) (st : server.State) (resp : server.Response)
    (typeURL : String) (sendErr : Option String) :
    (∀ e ∈ (server.send s st resp typeURL sendErr).2.2.2,
        e.isWatchCall = false ∧ e.isClosed = false) ∧
    (server.send s st resp typeURL sendErr).2.2.1.values = st.values := by
  unfold server.send
  cases server.createResponse s.MarshalResource (some resp) typeURL with
  | error e => simp
  | ok out =>
    cases s.callbacks <;> simp [server.Effect.isWatchCall, server.Effect.isClosed]

/-- The four ways the request hook and the watch switch end: the hook fails,
nothing is created, an endpoint watch is created, a cluster watch is created. -/
theorem server.handleRequest_cases (s : server.Server) (st : server.State)
    (r : DiscoveryRequest) (nonce : String) (hookErr : Option String)
    (w : Option Nat × Option Nat) :
    (∃ err effects, server.handleRequest s st r nonce hookErr w = .done err effects ∧
      ∀ e ∈ effects, e.isWatchCall = false ∧ e.isClosed = false) ∨
    (∃ effects, server.handleRequest s st r nonce hookErr w = .next st effects ∧
      ∀ e ∈ effects, e.isWatchCall = false ∧ e.isClosed = false) ∨
    (∃ pre, server.handleRequest s st r nonce hookErr w
        = .next { st with values :=
                    { st.values with endpoints := w.1, endpointCancel := w.2 } }
            (pre ++ server.cancelCall st.values.endpointCancel ++ [.CreateWatch r]) ∧
      (∀ e ∈ pre, e.isWatchCall = false ∧ e.isClosed = false) ∧
      r.TypeUrl = s.K.EndpointType) ∨
    (∃ pre, server.handleRequest s st r nonce hookErr w
        = .next { st with values :=
                    { st.values with clusters := w.1, clusterCancel := w.2 } }
            (pre ++ server.cancelCall st.values.clusterCancel ++ [.CreateWatch r]) ∧
      (∀ e ∈ pre, e.isWatchCall = false ∧ e.isClosed = false) ∧
      r.TypeUrl = s.K.ClusterType) := by
  have hq : ∀ e ∈ (if s.callbacks = true then [server.Effect.OnStreamRequest s.streamID r]
      else []), e.isWatchCall = false ∧ e.isClosed = false := by
    cases s.callbacks <;> simp [server.Effect.isWatchCall, server.Effect.isClosed]
  unfold server.handleRequest
  simp only []
  by_cases h1 : s.callbacks = true ∧ hookErr.isSome = true
  · rw [if_pos h1]
    exact Or.inl ⟨_, _, rfl, hq⟩
  · rw [if_neg h1]
    by_cases h2 : r.TypeUrl = s.K.EndpointType ∧
        (st.values.endpointNonce = "" ∨ st.values.endpointNonce = nonce)
    · rw [if_pos h2]
      refine Or.inr (Or.inr (Or.inl ⟨_, ?_, hq, h2.1⟩))
      cases st.values.endpointCancel <;> rfl
    · rw [if_neg h2]
      by_cases h3 : r.TypeUrl = s.K.ClusterType ∧
          (st.values.clusterNonce = "" ∨ st.values.clusterNonce = nonce)
      · rw [if_pos h3]
        refine Or.inr (Or.inr (Or.inr ⟨_, ?_, hq, h3.1⟩))
        cases st.values.clusterCancel <;> rfl
      · rw [if_neg h3]
        exact Or.inr (Or.inl ⟨_, rfl, hq⟩)

/-- The four ways one pass through the `select` of `process` ends: it returns,
it goes on without touching a watch, it creates an endpoint watch, it creates a
cluster watch. -/
theorem server.processStep_cases (s : server.Server) (defaultTypeURL : String)
    (st : server.State) (ev : server.Event) :
    (∃ err effects, server.processStep s defaultTypeURL st ev = .done err effects ∧
      ∀ e ∈ effects, e.isWatchCall = false ∧ e.isClosed = false) ∨
    (∃ st' effects, server.processStep s defaultTypeURL st ev = .next st' effects ∧
      (∀ e ∈ effects, e.isWatchCall = false ∧ e.isClosed = false) ∧
      st'.values.endpointCancel = st.values.endpointCancel ∧
      st'.values.clusterCancel = st.values.clusterCancel) ∨
    (∃ st' pre r, server.processStep s defaultTypeURL st ev
        = .next st' (pre ++ server.cancelCall st.values.endpointCancel ++ [.CreateWatch r]) ∧
      (∀ e ∈ pre, e.isWatchCall = false ∧ e.isClosed = false) ∧
      r.TypeUrl = s.K.EndpointType ∧
      st'.values.endpoints = ev.watchResult.1 ∧
      st'.values.endpointCancel = ev.watchResult.2 ∧
      st'.values.clusterCancel = st.values.clusterCancel ∧
      (ev.hasCancel = true → ev.watchResult.2 ≠ none)) ∨
    (∃ st' pre r, server.processStep s defaultTypeURL st ev
        = .next st' (pre ++ server.cancelCall st.values.clusterCancel ++ [.CreateWatch r]) ∧
      (∀ e ∈ pre, e.isWatchCall = false ∧ e.isClosed = false) ∧
      r.TypeUrl = s.K.ClusterType ∧
      st'.values.clusters = ev.watchResult.1 ∧
      st'.values.clusterCancel = ev.watchResult.2 ∧
      st'.values.endpointCancel = st.values.endpointCancel ∧
      (ev.hasCancel = true → ev.watchResult.2 ≠ none)) := by
  cases ev with
  | ctxDone => exact Or.inl ⟨_, _, rfl, by simp⟩
  | endpoints msg sendErr =>
    unfold server.processStep
    cases st.values.endpoints with
    | none => exact Or.inr (Or.inl ⟨_, _, rfl, by simp, rfl, rfl⟩)
    | some ch =>
      cases msg with
      | none => exact Or.inl ⟨_, _, rfl, by simp⟩
      | some resp =>
        have h := server.send_inert s st resp s.K.EndpointType sendErr
        rcases hs : server.send s st resp s.K.EndpointType sendErr with ⟨nonce, err, st', eff⟩
        rw [hs] at h
        simp only [hs]
        cases err with
        | none =>
          refine Or.inr (Or.inl ⟨_, _, rfl, h.1, ?_, ?_⟩)
          · simp only; rw [h.2]
          · simp only; rw [h.2]
        | some e => exact Or.inl ⟨_, _, rfl, h.1⟩
  | clusters msg sendErr =>
    unfold server.processStep
    cases st.values.clusters with
    | none => exact Or.inr (Or.inl ⟨_, _, rfl, by simp, rfl, rfl⟩)
    | some ch =>
      cases msg with
      | none => exact Or.inl ⟨_, _, rfl, by simp⟩
      | some resp =>
        have h := server.send_inert s st resp s.K.ClusterType sendErr
        rcases hs : server.send s st resp s.K.ClusterType sendErr with ⟨nonce, err, st', eff⟩
        rw [hs] at h
        simp only [hs]
        cases err with
        | none =>
          refine Or.inr (Or.inl ⟨_, _, rfl, h.1, ?_, ?_⟩)
          · simp only; rw [h.2]
          · simp only; rw [h.2]
        | some e => exact Or.inl ⟨_, _, rfl, h.1⟩
  | request msg hookErr watch =>
    rcases msg with _ | _ | req
    · exact Or.inl ⟨_, _, rfl, by simp⟩
    · exact Or.inl ⟨_, _, rfl, by simp⟩
    · by_cases hads : defaultTypeURL = s.K.AnyType ∧ req.TypeUrl = ""
      · refine Or.inl ⟨some (.invalidArgument "type URL is required for ADS"), [], ?_, by simp⟩
        simp [server.processStep, hads.1, hads.2]
      · rw [server.processStep_request s defaultTypeURL st req hookErr watch hads]
        have hc : (server.Event.request (some (some req)) hookErr watch).hasCancel = true →
            (server.Event.request (some (some req)) hookErr watch).watchResult.2 ≠ none := by
          intro h hn
          simp only [server.Event.hasCancel, server.Event.watchResult] at h hn
          rw [hn] at h
          exact Bool.false_ne_true h
        rcases server.handleRequest_cases s { st with node := req.Node.getD st.node }
            (server.resolve defaultTypeURL st req) req.ResponseNonce hookErr watch with
          ⟨err, effects, h, hq⟩ | ⟨effects, h, hq⟩ | ⟨pre, h, hq, ht⟩ | ⟨pre, h, hq, ht⟩
        · exact Or.inl ⟨_, _, h, hq⟩
        · exact Or.inr (Or.inl ⟨_, _, h, hq, rfl, rfl⟩)
        · exact Or.inr (Or.inr (Or.inl ⟨_, _, _, h, hq, ht, rfl, rfl, rfl, hc⟩))
        · exact Or.inr (Or.inr (Or.inr ⟨_, _, _, h, hq, ht, rfl, rfl, rfl, hc⟩))

theorem server.WatchInv.count_le_one {K : TypeURLs} {values : server.watches}
    {live : List (String × Option Nat)} (h : server.WatchInv K values live) (t : String) :
    (live.filter (fun x => x.1 = t)).length ≤ 1 := by
  by_cases he : t = K.EndpointType
  · rw [he]; exact h.2.1
  · by_cases hc : t = K.ClusterType
    · rw [hc]; exact h.2.2
    · have : live.filter (fun x => x.1 = t) = [] := by
        rw [List.filter_eq_nil_iff]
        intro x hx
        rcases (h.1 x hx).2 with h1 | h1
        · simp [h1.1, Ne.symm he]
        · simp [h1.1, Ne.symm hc]
      rw [this]
      exact Nat.zero_le _

theorem server.count_le_one_of_sublist {l₁ l₂ : List (String × Option Nat)}
    (hs : l₁.Sublist l₂) (t : String) (h : (l₂.filter (fun x => x.1 = t)).length ≤ 1) :
    (l₁.filter (fun x => x.1 = t)).length ≤ 1 :=
  le_trans (hs.filter _).length_le h

theorem server.Cancel_eq (values : server.watches) :
    values.Cancel
      = server.cancelCall values.endpointCancel ++ server.cancelCall values.clusterCancel := by
  unfold server.watches.Cancel
  cases values.endpointCancel <;> cases values.clusterCancel <;> rfl

/-- The deferred function of `process` creates no watch. -/
theorem server.trackWatches_deferred (s : server.Server) (values : server.watches)
    (w : Option Nat × Option Nat) (live : List (String × Option Nat)) :
    (server.trackWatches w live (server.deferred s values)).Sublist live := by
  unfold server.deferred
  rw [server.trackWatches_append, server.Cancel_eq, server.trackWatches_append,
    server.trackWatches_cancelCall, server.trackWatches_cancelCall,
    server.trackWatches_inert _ _ _ (by
      cases s.callbacks <;> simp [server.Effect.isWatchCall])]
  exact (List.filter_sublist _).trans (List.filter_sublist _)

/-- Creating an endpoint watch after the invocation of the handle in the endpoint
slot keeps the account of the watches. -/
theorem server.WatchInv.create_endpoint {K : TypeURLs} {values values' : server.watches}
    {live : List (String × Option Nat)} (h : server.WatchInv K values live)
    (hne : K.EndpointType ≠ K.ClusterType) (w : Option Nat × Option Nat) (hw : w.2 ≠ none)
    (pre : List server.Effect) (hpre : ∀ e ∈ pre, e.isWatchCall = false ∧ e.isClosed = false)
    (r : DiscoveryRequest) (hr : r.TypeUrl = K.EndpointType)
    (h1 : values'.endpointCancel = w.2) (h2 : values'.clusterCancel = values.clusterCancel) :
    server.WatchInv K values' (server.trackWatches w live
      (pre ++ server.cancelCall values.endpointCancel ++ [.CreateWatch r])) := by
  rw [server.trackWatches_append, server.trackWatches_append,
    server.trackWatches_inert _ _ _ (fun e he => (hpre e he).1), server.trackWatches_cancelCall]
  simp only [server.trackWatches, List.foldl_cons, List.foldl_nil, server.trackOne, hr]
  have hrest : ∀ x ∈ live.filter (fun x => x.2 ≠ values.endpointCancel ∨
      values.endpointCancel = none), x.2 ≠ none ∧ x.1 = K.ClusterType ∧
        x.2 = values.clusterCancel := by
    intro x hx
    rw [List.mem_filter] at hx
    obtain ⟨hx1, hx2⟩ := hx
    simp only [decide_eq_true_eq] at hx2
    obtain ⟨hn, hcase⟩ := h.1 x hx1
    rcases hcase with ⟨_, hslot⟩ | hcl
    · exfalso
      rcases hx2 with hx2 | hx2
      · exact hx2 hslot
      · exact hn (by rw [hslot, hx2])
    · exact ⟨hn, hcl⟩
  refine ⟨?_, ?_, ?_⟩
  · intro x hx
    rcases List.mem_append.1 hx with hx | hx
    · obtain ⟨hn, ht, hs⟩ := hrest x hx
      exact ⟨hn, Or.inr ⟨ht, by rw [h2]; exact hs⟩⟩
    · simp only [List.mem_singleton] at hx
      subst hx
      exact ⟨hw, Or.inl ⟨rfl, h1.symm⟩⟩
  · have : (live.filter (fun x => x.2 ≠ values.endpointCancel ∨
        values.endpointCancel = none)).filter (fun x => x.1 = K.EndpointType) = [] := by
      rw [List.filter_eq_nil_iff]
      intro x hx
      have := (hrest x hx).2.1
      simp [this, Ne.symm hne]
    rw [List.filter_append, this]
    simp
  · rw [List.filter_append]
    have h3 : [(K.EndpointType, w.2)].filter (fun x => x.1 = K.ClusterType) = [] := by
      simp [hne]
    rw [h3, List.append_nil]
    exact le_trans ((List.filter_sublist _).filter _).length_le h.2.2

/-- Creating a cluster watch after the invocation of the handle in the cluster
slot keeps the account of the watches. -/
theorem server.WatchInv.create_cluster {K : TypeURLs} {values values' : server.watches}
    {live : List (String × Option Nat)} (h : server.WatchInv K values live)
    (hne : K.EndpointType ≠ K.ClusterType) (w : Option Nat × Option Nat) (hw : w.2 ≠ none)
    (pre : List server.Effect) (hpre : ∀ e ∈ pre, e.isWatchCall = false ∧ e.isClosed = false)
    (r : DiscoveryRequest) (hr : r.TypeUrl = K.ClusterType)
    (h1 : values'.clusterCancel = w.2) (h2 : values'.endpointCancel = values.endpointCancel) :
    server.WatchInv K values' (server.trackWatches w live
      (pre ++ server.cancelCall values.clusterCancel ++ [.CreateWatch r])) := by
  rw [server.trackWatches_append, server.trackWatches_append,
    server.trackWatches_inert _ _ _ (fun e he => (hpre e he).1), server.trackWatches_cancelCall]
  simp only [server.trackWatches, List.foldl_cons, List.foldl_nil, server.trackOne, hr]
  have hrest : ∀ x ∈ live.filter (fun x => x.2 ≠ values.clusterCancel ∨
      values.clusterCancel = none), x.2 ≠ none ∧ x.1 = K.EndpointType ∧
        x.2 = values.endpointCancel := by
    intro x hx
    rw [List.mem_filter] at hx
    obtain ⟨hx1, hx2⟩ := hx
    simp only [decide_eq_true_eq] at hx2
    obtain ⟨hn, hcase⟩ := h.1 x hx1
    rcases hcase with hep | ⟨_, hslot⟩
    · exact ⟨hn, hep⟩
    · exfalso
      rcases hx2 with hx2 | hx2
      · exact hx2 hslot
      · exact hn (by rw [hslot, hx2])
  refine ⟨?_, ?_, ?_⟩
  · intro x hx
    rcases List.mem_append.1 hx with hx | hx
    · obtain ⟨hn, ht, hs⟩ := hrest x hx
      exact ⟨hn, Or.inl ⟨ht, by rw [h2]; exact hs⟩⟩
    · simp only [List.mem_singleton] at hx
      subst hx
      exact ⟨hw, Or.inr ⟨rfl, h1.symm⟩⟩
  · rw [List.filter_append]
    have h3 : [(K.ClusterType, w.2)].filter (fun x => x.1 = K.EndpointType) = [] := by
      simp [Ne.symm hne]
    rw [h3, List.append_nil]
    exact le_trans ((List.filter_sublist _).filter _).length_le h.2.1
  · have : (live.filter (fun x => x.2 ≠ values.clusterCancel ∨
        values.clusterCancel = none)).filter (fun x => x.1 = K.ClusterType) = [] := by
      rw [List.filter_eq_nil_iff]
      intro x hx
      have := (hrest x hx).2.1
      simp [this, hne]
    rw [List.filter_append, this]
    simp

/-- When every `CreateWatch` returns a cancel handle, the loop of `process` keeps
at most one watch of each type created and not cancelled. -/
theorem server.liveLoop_count (s : server.Server) (defaultTypeURL : String)
    (hne : s.K.EndpointType ≠ s.K.ClusterType) (events : List server.Event)
    (hev : ∀ ev ∈ events, ev.hasCancel = true) (st : server.State)
    (live : List (String × Option Nat)) (h : server.WatchInv s.K st.values live) (t : String) :
    ((server.liveLoop s defaultTypeURL events st live).filter (fun x => x.1 = t)).length ≤ 1 := by
  induction events generalizing st live with
  | nil => exact h.count_le_one t
  | cons ev rest ih =>
    have hrest : ∀ e ∈ rest, e.hasCancel = true := fun e he => hev e (List.mem_cons_of_mem _ he)
    have hev0 := hev ev (List.mem_cons_self _ _)
    unfold server.liveLoop
    rcases server.processStep_cases s defaultTypeURL st ev with
      ⟨err, effects, hs, hq⟩ | ⟨st', effects, hs, hq, h1, h2⟩ |
      ⟨st', pre, r, hs, hq, hr, _, h1, h2, hw⟩ | ⟨st', pre, r, hs, hq, hr, _, h1, h2, hw⟩
    · rw [hs]
      simp only []
      rw [server.trackWatches_append, server.trackWatches_inert _ _ _ (fun e he => (hq e he).1)]
      exact server.count_le_one_of_sublist (server.trackWatches_deferred s _ _ _) t
        (h.count_le_one t)
    · rw [hs]
      simp only []
      rw [server.trackWatches_inert _ _ _ (fun e he => (hq e he).1)]
      refine ih hrest st' live ?_
      unfold server.WatchInv
      rw [h1, h2]
      exact h
    · rw [hs]
      simp only []
      exact ih hrest st' _ (h.create_endpoint hne _ (hw hev0) pre hq r hr h1 h2)
    · rw [hs]
      simp only []
      exact ih hrest st' _ (h.create_cluster hne _ (hw hev0) pre hq r hr h1 h2)

/-- When every `CreateWatch` returns a cancel handle, `process` keeps at most one
watch of each type created and not cancelled. -/
theorem server.liveWatches_count (s : server.Server) (defaultTypeURL : String)
    (hne : s.K.EndpointType ≠ s.K.ClusterType) (events : List server.Event)
    (hev : ∀ ev ∈ events, ev.hasCancel = true) (t : String) :
    ((server.liveWatches s defaultTypeURL events).filter (fun x => x.1 = t)).length ≤ 1 := by
  unfold server.liveWatches
  split_ifs
  · simp
  · refine server.liveLoop_count s defaultTypeURL hne events hev _ [] ?_ t
    simp [server.WatchInv]

/-- No pass through the `select` of `process` calls the close hook. -/
theorem server.processStep_not_closed (s : server.Server) (defaultTypeURL : String)
    (st : server.State) (ev : server.Event) :
    match server.processStep s defaultTypeURL st ev with
    | .next _ effects => ∀ e ∈ effects, e.isClosed = false
    | .done _ effects => ∀ e ∈ effects, e.isClosed = false := by
  have hcc : ∀ slot, ∀ e ∈ server.cancelCall slot, e.isClosed = false := by
    intro slot e he
    cases slot <;> simp_all [server.cancelCall, server.Effect.isClosed]
  have hcreate : ∀ (pre : List server.Effect) (slot : Option Nat) (r : DiscoveryRequest),
      (∀ e ∈ pre, e.isWatchCall = false ∧ e.isClosed = false) →
      ∀ e ∈ pre ++ server.cancelCall slot ++ [server.Effect.CreateWatch r],
        e.isClosed = false := by
    intro pre slot r hq e he
    rcases List.mem_append.1 he with he | he
    · rcases List.mem_append.1 he with he | he
      · exact (hq e he).2
      · exact hcc slot e he
    · simp only [List.mem_singleton] at he
      rw [he]
      rfl
  rcases server.processStep_cases s defaultTypeURL st ev with
    ⟨err, effects, hs, hq⟩ | ⟨st', effects, hs, hq, _⟩ |
    ⟨st', pre, r, hs, hq, _⟩ | ⟨st', pre, r, hs, hq, _⟩
  · rw [hs]; exact fun e he => (hq e he).2
  · rw [hs]; exact fun e he => (hq e he).2
  · rw [hs]; exact hcreate pre _ r hq
  · rw [hs]; exact hcreate pre _ r hq

/-- When the loop of `process` returns, the last calls are those of the deferred
function on the watches of the state it returns from, and the close hook is not
called before. -/
theorem server.processLoop_return (s : server.Server) (defaultTypeURL : String)
    (events : List server.Event) (st : server.State) (trace : List server.Effect)
    (h : (server.processLoop s defaultTypeURL events st trace).returned ≠ none) :
    ∃ mid, (server.processLoop s defaultTypeURL events st trace).trace
        = trace ++ mid ++ server.deferred s (server.loopState s defaultTypeURL events st).values ∧
      ∀ e ∈ mid, e.isClosed = false := by
  induction events generalizing st trace with
  | nil => exact absurd rfl h
  | cons ev rest ih =>
    have hq := server.processStep_not_closed s defaultTypeURL st ev
    unfold server.processLoop at h ⊢
    unfold server.loopState
    cases hs : server.processStep s defaultTypeURL st ev with
    | next st' effects =>
      rw [hs] at h hq
      simp only [] at h hq ⊢
      obtain ⟨mid, hm, hmq⟩ := ih st' (trace ++ effects) h
      refine ⟨effects ++ mid, by rw [hm]; simp, ?_⟩
      intro e he
      rcases List.mem_append.1 he with he | he
      · exact hq e he
      · exact hmq e he
    | done err effects =>
      rw [hs] at hq
      exact ⟨effects, rfl, hq⟩

/-! ## One watch per type -/

/-- C11 (as stated, refuted): when the cache returns a nil cancel handle with the
first cluster watch, the second request creates a second cluster watch and no
handle is invoked: two cluster watches are created and not cancelled. -/
theorem process_two_watches_counterexample :
    (server.liveWatches sampleServer sampleURLs.ClusterType
        [.request (some (some (sampleClusterRequest "" []))) none (some 0, none),
         .request (some (some (sampleClusterRequest "" []))) none (some 1, some 1)]).filter
          (fun w => w.1 = sampleURLs.ClusterType)
      = [(sampleURLs.ClusterType, none), (sampleURLs.ClusterType, some 1)] ∧
    ¬ ((server.liveWatches sampleServer sampleURLs.ClusterType
        [.request (some (some (sampleClusterRequest "" []))) none (some 0, none),
         .request (some (some (sampleClusterRequest "" []))) none (some 1, some 1)]).filter
          (fun w => w.1 = sampleURLs.ClusterType)).length ≤ 1 := by
  decide

/-- C11 (amended): in `process`, whenever a watch is created for a type URL, the
cancel handle the stream holds for that type, if any, is invoked just before
`CreateWatch` is called, and the slots of the type are overwritten with the new
watch; consequently, when every `CreateWatch` returns a non-nil cancel handle,
in every reachable stream state there is at most one created-but-not-cancelled
watch per type URL. -/
theorem process_one_watch_per_type (s : server.Server) (defaultTypeURL : String)
    (hne : s.K.EndpointType ≠ s.K.ClusterType) :
    (∀ st ev st' effects r, server.processStep s defaultTypeURL st ev = .next st' effects →
      server.Effect.CreateWatch r ∈ effects →
      (r.TypeUrl = s.K.EndpointType ∧
        (∃ pre, effects
            = pre ++ server.cancelCall st.values.endpointCancel ++ [.CreateWatch r] ∧
          ∀ e ∈ pre, e.isWatchCall = false) ∧
        st'.values.endpoints = ev.watchResult.1 ∧
        st'.values.endpointCancel = ev.watchResult.2) ∨
      (r.TypeUrl = s.K.ClusterType ∧
        (∃ pre, effects
            = pre ++ server.cancelCall st.values.clusterCancel ++ [.CreateWatch r] ∧
          ∀ e ∈ pre, e.isWatchCall = false) ∧
        st'.values.clusters = ev.watchResult.1 ∧
        st'.values.clusterCancel = ev.watchResult.2)) ∧
    (∀ events, (∀ ev ∈ events, ev.hasCancel = true) → ∀ t,
      ((server.liveWatches s defaultTypeURL events).filter (fun w => w.1 = t)).length ≤ 1) := by
  refine ⟨?_, fun events hev t => server.liveWatches_count s defaultTypeURL hne events hev t⟩
  intro st ev st' effects r hstep hmem
  have hcc : ∀ slot, server.Effect.CreateWatch r ∉ server.cancelCall slot := by
    intro slot
    cases slot <;> simp [server.cancelCall]
  have hfind : ∀ (pre : List server.Effect) (slot : Option Nat) (r0 : DiscoveryRequest),
      (∀ e ∈ pre, e.isWatchCall = false ∧ e.isClosed = false) →
      server.Effect.CreateWatch r ∈ pre ++ server.cancelCall slot ++ [.CreateWatch r0] →
      r0 = r := by
    intro pre slot r0 hq h
    rcases List.mem_append.1 h with h | h
    · rcases List.mem_append.1 h with h | h
      · have := (hq _ h).1
        simp [server.Effect.isWatchCall] at this
      · exact absurd h (hcc slot)
    · simp only [List.mem_singleton, server.Effect.CreateWatch.injEq] at h
      exact h.symm
  rcases server.processStep_cases s defaultTypeURL st ev with
    ⟨err, eff, hs, hq⟩ | ⟨st2, eff, hs, hq, _⟩ |
    ⟨st2, pre, r0, hs, hq, hr, h1, h2, _⟩ | ⟨st2, pre, r0, hs, hq, hr, h1, h2, _⟩
  · rw [hs] at hstep; cases hstep
  · rw [hs] at hstep
    simp only [server.Step.next.injEq] at hstep
    rw [← hstep.2] at hmem
    have := (hq _ hmem).1
    simp [server.Effect.isWatchCall] at this
  · rw [hs] at hstep
    simp only [server.Step.next.injEq] at hstep
    obtain ⟨rfl, rfl⟩ := hstep
    have hr0 := hfind pre _ r0 hq hmem
    subst hr0
    exact Or.inl ⟨hr, ⟨pre, rfl, fun e he => (hq e he).1⟩, h1, h2⟩
  · rw [hs] at hstep
    simp only [server.Step.next.injEq] at hstep
    obtain ⟨rfl, rfl⟩ := hstep
    have hr0 := hfind pre _ r0 hq hmem
    subst hr0
    exact Or.inr ⟨hr, ⟨pre, rfl, fun e he => (hq e he).1⟩, h1, h2⟩

/-- C11 (amended), at the sample run, where every watch comes with a handle: at
most one cluster watch is created and not cancelled. -/
theorem process_one_watch_per_type_witness :
    ((server.liveWatches sampleServer sampleURLs.ClusterType sampleEvents).filter
      (fun w => w.1 = sampleURLs.ClusterType)).length ≤ 1 :=
  (process_one_watch_per_type sampleServer sampleURLs.ClusterType (by decide)).2 sampleEvents
    (by decide) sampleURLs.ClusterType

/-! ## Return paths -/

/-- When `process` returns, the last calls are those of the deferred function on
the watches of the state it returns from, and the close hook is not called
before. -/
theorem server.process_return_trace (s : server.Server) (defaultTypeURL : String)
    (events : List server.Event)
    (h : (server.process s defaultTypeURL events).returned ≠ none) :
    ∃ pre, (server.process s defaultTypeURL events).trace
        = pre ++ server.deferred s (server.returnState s defaultTypeURL events).values ∧
      ∀ e ∈ pre, e.isClosed = false := by
  unfold server.process at h ⊢
  unfold server.returnState
  by_cases ho : s.callbacks = true ∧ s.openErr.isSome = true
  · simp only [ho, and_self, if_true] at h ⊢
    exact ⟨[server.Effect.OnStreamOpen s.streamID defaultTypeURL], rfl,
      by simp [server.Effect.isClosed]⟩
  · simp only [ho, if_false] at h ⊢
    obtain ⟨mid, hm, hq⟩ := server.processLoop_return s defaultTypeURL events
      server.initialState _ h
    refine ⟨(if s.callbacks = true then
        [server.Effect.OnStreamOpen s.streamID defaultTypeURL] else []) ++ mid, hm, ?_⟩
    intro e he
    rcases List.mem_append.1 he with he | he
    · cases hc : s.callbacks <;> simp [hc] at he
      rw [he]; rfl
    · exact hq e he

/-- The calls of the deferred function of `process`, one by one. -/
theorem server.deferred_eq (s : server.Server) (values : server.watches) :
    server.deferred s values
      = server.cancelCall values.endpointCancel ++ server.cancelCall values.clusterCancel
          ++ (if s.callbacks then [server.Effect.OnStreamClosed s.streamID] else []) := by
  unfold server.deferred
  rw [server.Cancel_eq]

theorem server.cancelCall_not_closed (slot : Option Nat) :
    (server.cancelCall slot).filter (fun e => e.isClosed) = [] := by
  cases slot <;> simp [server.cancelCall, server.Effect.isClosed]

/-- C15: on every return path of `process` the last calls are: the invocation of
the cancel handle stored in the endpoint slot, if there is one, the invocation of
the cancel handle stored in the cluster slot, if there is one, and, when callbacks
are installed, `OnStreamClosed` with the stream's ID; so every stored handle is
invoked, and `OnStreamClosed` is called exactly once when callbacks are installed
and never otherwise. The return paths are: server context cancelled, inbound
channel closed, nil request, missing type URL on ADS, a watch channel closed, a
`createResponse` or send error, and an error of the `OnStreamRequest` or
`OnStreamOpen` hook. -/
theorem process_return_closes (s : server.Server) (defaultTypeURL : String)
    (events : List server.Event) (st : server.State) (rest : List server.Event)
    (trace : List server.Effect) :
    ((server.process s defaultTypeURL events).returned ≠ none →
      (∃ pre, (server.process s defaultTypeURL events).trace
          = pre
            ++ server.cancelCall
                (server.returnState s defaultTypeURL events).values.endpointCancel
            ++ server.cancelCall
                (server.returnState s defaultTypeURL events).values.clusterCancel
            ++ (if s.callbacks then [server.Effect.OnStreamClosed s.streamID] else []) ∧
        ∀ e ∈ pre, e.isClosed = false) ∧
      (∀ handle,
        (server.returnState s defaultTypeURL events).values.endpointCancel = some handle ∨
          (server.returnState s defaultTypeURL events).values.clusterCancel = some handle →
        server.Effect.cancel handle ∈ (server.process s defaultTypeURL events).trace) ∧
      (server.process s defaultTypeURL events).trace.filter (fun e => e.isClosed)
        = if s.callbacks then [server.Effect.OnStreamClosed s.streamID] else []) ∧
    (∀ ev err effects, server.processStep s defaultTypeURL st ev = .done err effects →
      server.processLoop s defaultTypeURL (ev :: rest) st trace
        = { trace := trace ++ effects
              ++ (server.cancelCall st.values.endpointCancel
                ++ server.cancelCall st.values.clusterCancel
                ++ (if s.callbacks then [server.Effect.OnStreamClosed s.streamID] else [])),
            returned := some err }) ∧
    server.processStep s defaultTypeURL st .ctxDone = .done none [] ∧
    (∀ hookErr watch,
      server.processStep s defaultTypeURL st (.request none hookErr watch) = .done none [] ∧
      server.processStep s defaultTypeURL st (.request (some none) hookErr watch)
        = .done (some (.unavailable "empty request")) [] ∧
      ∀ req, defaultTypeURL = s.K.AnyType → req.TypeUrl = "" →
        server.processStep s defaultTypeURL st (.request (some (some req)) hookErr watch)
          = .done (some (.invalidArgument "type URL is required for ADS")) []) ∧
    (∀ sendErr, st.values.endpoints ≠ none →
      server.processStep s defaultTypeURL st (.endpoints none sendErr)
        = .done (some (.unavailable "endpoints watch failed")) []) ∧
    (∀ sendErr, st.values.clusters ≠ none →
      server.processStep s defaultTypeURL st (.clusters none sendErr)
        = .done (some (.unavailable "clusters watch failed")) []) ∧
    (∀ resp sendErr err, st.values.endpoints ≠ none →
      server.createResponse s.MarshalResource (some resp) s.K.EndpointType = .error err →
      server.processStep s defaultTypeURL st (.endpoints (some resp) sendErr)
        = .done (some err) []) ∧
    (∀ resp sendErr err, st.values.clusters ≠ none →
      server.createResponse s.MarshalResource (some resp) s.K.ClusterType = .error err →
      server.processStep s defaultTypeURL st (.clusters (some resp) sendErr)
        = .done (some err) []) ∧
    (∀ resp e out, st.values.endpoints ≠ none →
      server.createResponse s.MarshalResource (some resp) s.K.EndpointType = .ok out →
      ∃ effects, server.processStep s defaultTypeURL st (.endpoints (some resp) (some e))
        = .done (some (.transport e)) effects) ∧
    (∀ resp e out, st.values.clusters ≠ none →
      server.createResponse s.MarshalResource (some resp) s.K.ClusterType = .ok out →
      ∃ effects, server.processStep s defaultTypeURL st (.clusters (some resp) (some e))
        = .done (some (.transport e)) effects) ∧
    (∀ req nonce e watch, s.callbacks = true →
      server.handleRequest s st req nonce (some e) watch
        = .done (some (.callback e)) [.OnStreamRequest s.streamID req]) ∧
    (∀ e, s.callbacks = true → s.openErr = some e →
      server.process s defaultTypeURL events
        = { trace := [server.Effect.OnStreamOpen s.streamID defaultTypeURL,
                      server.Effect.OnStreamClosed s.streamID],
            returned := some (some (.callback e)) }) := by
  refine ⟨?_, ?_, rfl, fun hookErr watch => ⟨rfl, rfl, ?_⟩, ?_, ?_, ?_, ?_, ?_, ?_, ?_, ?_⟩
  · intro h
    obtain ⟨pre, hp, hq⟩ := server.process_return_trace s defaultTypeURL events h
    rw [server.deferred_eq] at hp
    refine ⟨⟨pre, by rw [hp]; simp only [List.append_assoc], hq⟩, ?_, ?_⟩
    · intro handle hh
      rw [hp]
      rcases hh with hh | hh
      · rw [hh]; simp [server.cancelCall]
      · rw [hh]; simp [server.cancelCall]
    · rw [hp]
      have hpre : pre.filter (fun e => e.isClosed) = [] := by
        rw [List.filter_eq_nil_iff]
        intro e he
        rw [hq e he]
        exact Bool.false_ne_true
      simp only [List.filter_append, hpre, server.cancelCall_not_closed, List.nil_append]
      cases s.callbacks <;> simp [server.Effect.isClosed]
  · intro ev err effects h
    rw [server.processLoop, h]
    simp only [server.deferred_eq]
  · intro req h1 h2
    simp [server.processStep, h1, h2]
  · intro sendErr h
    obtain ⟨ch, hch⟩ := Option.ne_none_iff_exists'.1 h
    simp [server.processStep, hch]
  · intro sendErr h
    obtain ⟨ch, hch⟩ := Option.ne_none_iff_exists'.1 h
    simp [server.processStep, hch]
  · intro resp sendErr err h hc
    obtain ⟨ch, hch⟩ := Option.ne_none_iff_exists'.1 h
    simp [server.processStep, hch, server.send, hc]
  · intro resp sendErr err h hc
    obtain ⟨ch, hch⟩ := Option.ne_none_iff_exists'.1 h
    simp [server.processStep, hch, server.send, hc]
  · intro resp e out h hc
    obtain ⟨ch, hch⟩ := Option.ne_none_iff_exists'.1 h
    simp [server.processStep, hch, server.send, hc]
  · intro resp e out h hc
    obtain ⟨ch, hch⟩ := Option.ne_none_iff_exists'.1 h
    simp [server.processStep, hch, server.send, hc]
  · intro req nonce e watch h
    simp [server.handleRequest, h]
  · intro e h1 h2
    simp [server.process, server.deferred, server.watches.Cancel, server.initialState, h1, h2]

/-- C15, at the sample run ended by the cancellation of the server context: the
cluster watch created last came with the handle 1; the trace ends with the
invocation of that handle and the close hook, which is called once. -/
theorem process_return_closes_witness :
    (∃ pre, (server.process sampleServer sampleURLs.ClusterType
        (sampleEvents ++ [.ctxDone])).trace
        = pre ++ [server.Effect.cancel 1, server.Effect.OnStreamClosed 1] ∧
      ∀ e ∈ pre, e.isClosed = false) ∧
    server.Effect.cancel 1 ∈ (server.process sampleServer sampleURLs.ClusterType
        (sampleEvents ++ [.ctxDone])).trace ∧
    (server.process sampleServer sampleURLs.ClusterType
        (sampleEvents ++ [.ctxDone])).trace.filter (fun e => e.isClosed)
      = [server.Effect.OnStreamClosed 1] := by
  have h := (process_return_closes sampleServer sampleURLs.ClusterType
    (sampleEvents ++ [.ctxDone]) sampleState [] []).1 (by decide)
  have he : (server.returnState sampleServer sampleURLs.ClusterType
      (sampleEvents ++ [.ctxDone])).values.endpointCancel = none := by decide
  have hc : (server.returnState sampleServer sampleURLs.ClusterType
      (sampleEvents ++ [.ctxDone])).values.clusterCancel = some 1 := by decide
  obtain ⟨⟨pre, hp, hq⟩, hm, hf⟩ := h
  rw [he, hc] at hp
  refine ⟨⟨pre, ?_, hq⟩, hm 1 (Or.inr hc), hf⟩
  rw [hp]
  simp [server.cancelCall, sampleServer]

/-! ## createResponse -/

theorem server.marshalResources_eq_ok (M : Resource → Except String Bytes) (t : String)
    (rs : List Resource) (out : List Any) :
    server.marshalResources M t rs = .ok out ↔
      List.Forall₂ (fun res a => a.TypeUrl = t ∧ M res = .ok a.Value) rs out := by
  induction rs generalizing out with
  | nil =>
    simp only [server.marshalResources, Except.ok.injEq]
    constructor
    · rintro rfl; exact List.Forall₂.nil
    · intro h; cases h; rfl
  | cons r rest ih =>
    simp only [server.marshalResources]
    cases hm : M r with
    | error e =>
      simp only
      constructor
      · intro h; cases h
      · intro h
        cases h with
        | cons h1 _ => rw [hm] at h1; cases h1.2
    | ok d =>
      simp only
      cases hr : server.marshalResources M t rest with
      | error e =>
        simp only
        constructor
        · intro h; cases h
        · intro h
          cases h with
          | cons _ h2 => rw [← ih] at h2; rw [hr] at h2; cases h2
      | ok as =>
        simp only [Except.ok.injEq]
        constructor
        · rintro rfl
          exact List.Forall₂.cons ⟨rfl, hm⟩ ((ih as).1 hr)
        · intro h
          cases h with
          | @cons _ a _ as' h1 h2 =>
            have h3 := (ih as').2 h2
            rw [hr] at h3
            simp only [Except.ok.injEq] at h3
            obtain ⟨ht, hv⟩ := h1
            rw [hm] at hv
            simp only [Except.ok.injEq] at hv
            subst h3
            cases a
            simp_all

theorem server.marshalResources_eq_error (M : Resource → Except String Bytes) (t : String)
    (rs : List Resource) (err : server.Err) :
    server.marshalResources M t rs = .error err ↔
      ∃ pre res post e, rs = pre ++ res :: post ∧ (∀ p ∈ pre, ∃ d, M p = .ok d) ∧
        M res = .error e ∧ err = .marshal e := by
  induction rs generalizing err with
  | nil => simp [server.marshalResources]
  | cons r rest ih =>
    simp only [server.marshalResources]
    cases hm : M r with
    | error e =>
      simp only [Except.error.injEq]
      constructor
      · rintro rfl
        exact ⟨[], r, rest, e, rfl, by simp, hm, rfl⟩
      · rintro ⟨pre, res, post, e', hl, hpre, hres, herr⟩
        cases pre with
        | nil =>
          simp only [List.nil_append, List.cons.injEq] at hl
          rw [← hl.1, hm] at hres
          simp only [Except.error.injEq] at hres
          rw [herr, hres]
        | cons p pre' =>
          simp only [List.cons_append, List.cons.injEq] at hl
          obtain ⟨d, hd⟩ := hpre p (List.mem_cons_self _ _)
          rw [← hl.1, hm] at hd
          cases hd
    | ok d =>
      simp only
      cases hr : server.marshalResources M t rest with
      | error e =>
        simp only [Except.error.injEq]
        obtain ⟨pre, res, post, e', hl, hpre, hres, herr⟩ := (ih e).1 hr
        constructor
        · rintro rfl
          refine ⟨r :: pre, res, post, e', by rw [hl]; rfl, ?_, hres, herr⟩
          intro p hp
          rcases List.mem_cons.1 hp with rfl | hp
          · exact ⟨d, hm⟩
          · exact hpre p hp
        · rintro ⟨pre2, res2, post2, e2, hl2, hpre2, hres2, herr2⟩
          cases pre2 with
          | nil =>
            simp only [List.nil_append, List.cons.injEq] at hl2
            rw [← hl2.1, hm] at hres2
            cases hres2
          | cons p pre2' =>
            simp only [List.cons_append, List.cons.injEq] at hl2
            have := (ih err).2 ⟨pre2', res2, post2, e2, hl2.2,
              fun q hq => hpre2 q (List.mem_cons_of_mem _ hq), hres2, herr2⟩
            rw [hr] at this
            simp only [Except.error.injEq] at this
            exact this
      | ok as =>
        simp only
        constructor
        · intro h; cases h
        · rintro ⟨pre2, res2, post2, e2, hl2, hpre2, hres2, herr2⟩
          cases pre2 with
          | nil =>
            simp only [List.nil_append, List.cons.injEq] at hl2
            rw [← hl2.1, hm] at hres2
            cases hres2
          | cons p pre2' =>
            simp only [List.cons_append, List.cons.injEq] at hl2
            have := (ih err).2 ⟨pre2', res2, post2, e2, hl2.2,
              fun q hq => hpre2 q (List.mem_cons_of_mem _ hq), hres2, herr2⟩
            rw [hr] at this
            cases this

/-- C17: `createResponse` returns the "missing response" error and no output
for a nil response. For a response `r` and a type URL `t` it returns a
`DiscoveryResponse` with `VersionInfo = r.Version`, `TypeUrl = t` and one resource
per input, in order, each wrapped with `t`: when `r.ResourceMarshaled` is set the
values are those of `r.MarshaledResources` and `MarshalResource` is not used,
otherwise they are the results of `MarshalResource` on `r.Resources`, and the
call fails with the error of the first resource whose marshalling fails. -/
theorem createResponse_spec (M : Resource → Except String Bytes) (t : String)
    (r : server.Response) :
    server.createResponse M none t = .error .missingResponse ∧
    (r.ResourceMarshaled = true →
      server.createResponse M (some r) t
        = .ok { VersionInfo := r.Version,
                Resources := r.MarshaledResources.map (fun v => { TypeUrl := t, Value := v }),
                TypeUrl := t, Nonce := "" } ∧
      ∀ M', server.createResponse M' (some r) t = server.createResponse M (some r) t) ∧
    (r.ResourceMarshaled = false →
      (∀ out, server.createResponse M (some r) t = .ok out ↔
        out.VersionInfo = r.Version ∧ out.TypeUrl = t ∧ out.Nonce = "" ∧
          List.Forall₂ (fun res a => a.TypeUrl = t ∧ M res = .ok a.Value)
            r.Resources out.Resources) ∧
      (∀ err, server.createResponse M (some r) t = .error err ↔
        ∃ pre res post e, r.Resources = pre ++ res :: post ∧
          (∀ p ∈ pre, ∃ d, M p = .ok d) ∧ M res = .error e ∧ err = .marshal e)) := by
  refine ⟨rfl, fun h => ⟨?_, fun M' => ?_⟩, fun h => ⟨fun out => ?_, fun err => ?_⟩⟩
  · simp [server.createResponse, h]
  · simp [server.createResponse, h]
  · simp only [server.createResponse, h, Bool.false_eq_true, if_false]
    cases hm : server.marshalResources M t r.Resources with
    | error e =>
      simp only
      constructor
      · intro h'; cases h'
      · rintro ⟨_, _, _, hf⟩
        rw [← server.marshalResources_eq_ok, hm] at hf
        cases hf
    | ok as =>
      simp only [Except.ok.injEq]
      constructor
      · rintro rfl
        exact ⟨rfl, rfl, rfl, (server.marshalResources_eq_ok M t _ _).1 hm⟩
      · rintro ⟨h1, h2, h3, hf⟩
        rw [← server.marshalResources_eq_ok, hm] at hf
        simp only [Except.ok.injEq] at hf
        cases out
        simp_all
  · simp only [server.createResponse, h, Bool.false_eq_true, if_false]
    rw [← server.marshalResources_eq_error M t r.Resources err]
    cases hm : server.marshalResources M t r.Resources with
    | error e => simp
    | ok as => simp

/-- C17, at a delivery whose resources are already marshaled: the two values are
wrapped with the type URL. -/
theorem createResponse_spec_witness :
    server.createResponse sampleMarshal (some (sampleDelivery "2")) sampleURLs.ClusterType
      = .ok { VersionInfo := (sampleDelivery "2").Version,
              Resources := (sampleDelivery "2").MarshaledResources.map
                (fun v => { TypeUrl := sampleURLs.ClusterType, Value := v }),
              TypeUrl := sampleURLs.ClusterType, Nonce := "" } :=
  ((createResponse_spec sampleMarshal sampleURLs.ClusterType (sampleDelivery "2")).2.1 rfl).1

/-! ## Requests without a type URL -/

/-- C12: in `process` (v3) and `discoveryProcess` (v2), a non-nil request with an
empty `TypeUrl` on a stream whose default type is `AnyType` makes the function
return an InvalidArgument status, with no hook, cache call or send for the request;
on a stream with another default type the request is handled with `TypeUrl` set
to the default type. -/
theorem empty_typeUrl (s : server.Server) (s2 : server2.Server2) (defaultTypeURL : String)
    (st : server.State) (st2 : server2.State) (req : DiscoveryRequest)
    (req2 : xdspb2.DiscoveryRequest) (hookErr : Option String) (watch : Option Nat × Option Nat)
    (Fetch : DiscoveryRequest → Except FetchError DiscoveryResponse)
    (Send : xdspb2.DiscoveryResponse → Option String)
    (rest : List server.Event) (rest2 : List server2.Event)
    (trace : List server.Effect) (trace2 : List server2.Effect)
    (hreq : req.TypeUrl = "") (hreq2 : req2.TypeUrl = "") :
    (defaultTypeURL = s.K.AnyType →
      server.processStep s defaultTypeURL st (.request (some (some req)) hookErr watch)
        = .done (some (.invalidArgument "type URL is required for ADS")) [] ∧
      server.processLoop s defaultTypeURL (.request (some (some req)) hookErr watch :: rest)
          st trace
        = { trace := trace ++ server.deferred s st.values,
            returned := some (some (.invalidArgument "type URL is required for ADS")) }) ∧
    (defaultTypeURL ≠ s.K.AnyType →
      server.processStep s defaultTypeURL st (.request (some (some req)) hookErr watch)
        = server.handleRequest s { st with node := req.Node.getD st.node }
            { req with Node := some (req.Node.getD st.node), TypeUrl := defaultTypeURL }
            req.ResponseNonce hookErr watch) ∧
    (defaultTypeURL = s2.K.AnyType →
      server2.discoveryStep s2 defaultTypeURL st2 (.request (some (some req2)) Fetch Send)
        = .done (some (.invalidArgument "type URL is required for ADS")) [] ∧
      server2.discoveryLoop s2 defaultTypeURL (.request (some (some req2)) Fetch Send :: rest2)
          st2 trace2
        = { trace := trace2,
            returned := some (some (.invalidArgument "type URL is required for ADS")) }) ∧
    (defaultTypeURL ≠ s2.K.AnyType →
      server2.discoveryStep s2 defaultTypeURL st2 (.request (some (some req2)) Fetch Send)
        = server2.fetchAndSend s2 { st2 with node := req2.Node.getD st2.node }
            { req2 with Node := some (req2.Node.getD st2.node), TypeUrl := defaultTypeURL }
            Fetch Send) := by
  refine ⟨fun h => ?_, fun h => ?_, fun h => ?_, fun h => ?_⟩
  · have h1 : server.processStep s defaultTypeURL st (.request (some (some req)) hookErr watch)
        = .done (some (.invalidArgument "type URL is required for ADS")) [] := by
      simp [server.processStep, h, hreq]
    refine ⟨h1, ?_⟩
    rw [server.processLoop, h1]
    simp
  · simp only [server.processStep, hreq, h, if_false, if_true]
    cases req.Node <;> rfl
  · have h1 : server2.discoveryStep s2 defaultTypeURL st2 (.request (some (some req2)) Fetch Send)
        = .done (some (.invalidArgument "type URL is required for ADS")) [] := by
      simp [server2.discoveryStep, h, hreq2]
    refine ⟨h1, ?_⟩
    rw [server2.discoveryLoop, h1]
    simp
  · simp only [server2.discoveryStep, hreq2, h, if_false, if_true]
    cases req2.Node <;> rfl

/-- C12, at the sample servers: on an aggregated stream a request without a type
URL ends `process` and `discoveryProcess` with InvalidArgument. -/
theorem empty_typeUrl_witness :
    server.processStep sampleServer sampleURLs.AnyType sampleState
        (.request (some (some { sampleClusterRequest "" [] with TypeUrl := "" })) none
          (some 1, some 1))
      = .done (some (.invalidArgument "type URL is required for ADS")) [] ∧
    server2.discoveryStep sampleServer2 sampleURLs.AnyType server2.initialState
        (.request (some (some { sampleRequest2 with TypeUrl := "" }))
          (cache.Fetch sampleURLs sampleMarshal cache.sampleCache) (fun _ => none))
      = .done (some (.invalidArgument "type URL is required for ADS")) [] :=
  ⟨((empty_typeUrl sampleServer sampleServer2 sampleURLs.AnyType sampleState
      server2.initialState ({ sampleClusterRequest "" [] with TypeUrl := "" })
      ({ sampleRequest2 with TypeUrl := "" }) none (some 1, some 1)
      (cache.Fetch sampleURLs sampleMarshal cache.sampleCache) (fun _ => none) [] [] [] []
      rfl rfl).1 rfl).1,
   ((empty_typeUrl sampleServer sampleServer2 sampleURLs.AnyType sampleState
      server2.initialState ({ sampleClusterRequest "" [] with TypeUrl := "" })
      ({ sampleRequest2 with TypeUrl := "" }) none (some 1, some 1)
      (cache.Fetch sampleURLs sampleMarshal cache.sampleCache) (fun _ => none) [] [] [] []
      rfl rfl).2.2.1 rfl).1⟩

/-! ## The default type of the v2 streams -/

/-- C13 (the code at the failing input): `StreamListeners` runs `discoveryProcess`
with the Cluster type URL as default type; a request without a type URL on a
Listener stream is fetched and answered as a Cluster request. `StreamEndpoints`
and `StreamClusters` pass their own type. -/
theorem StreamListeners_default_type :
    (∀ s events, server2.StreamListeners s events
      = server2.discoveryProcess s s.K.ClusterType events) ∧
    (∀ s events, server2.StreamEndpoints s events
      = server2.discoveryProcess s s.K.EndpointType events) ∧
    (∀ s events, server2.StreamClusters s events
      = server2.discoveryProcess s s.K.ClusterType events) ∧
    sampleURLs.ClusterType ≠ sampleURLs.ListenerType ∧
    (server2.StreamListeners sampleServer2
        [.request (some (some { sampleRequest2 with TypeUrl := "" }))
          (cache.Fetch sampleURLs sampleMarshal cache.sampleCache) (fun _ => none)]).trace
      = [.Fetch { VersionInfo := "", Node := some { Id := "" }, ResourceNames := [],
                  TypeUrl := sampleURLs.ClusterType, ResponseNonce := "" },
         .Send { VersionInfo := "2",
                 Resources := [{ TypeUrl := sampleURLs.ClusterType, Value := [97] },
                               { TypeUrl := sampleURLs.ClusterType, Value := [98] }],
                 TypeUrl := sampleURLs.ClusterType, Nonce := "1" }] :=
  ⟨fun _ _ => rfl, fun _ _ => rfl, fun _ _ => rfl, by decide, by decide⟩

/-! ## Skip in the v2 stream loop -/

/-- C14 (the code at the failing input): when the cache's `Fetch` returns the Skip
sentinel, for an inbound request or for a fetch of the tick, `discoveryProcess`
sends nothing and returns the sentinel as its error. On the sample cache of
pkg/cache2 the first tick after the first answer ends the stream. -/
theorem discoveryProcess_skip :
    (∀ (s : server2.Server2) (st : server2.State) (req : xdspb2.DiscoveryRequest)
        (Fetch : DiscoveryRequest → Except FetchError DiscoveryResponse)
        (Send : xdspb2.DiscoveryResponse → Option String),
      Fetch (s.DiscoveryRequestToV3 req) = .error .SkipFetchError →
      server2.fetchAndSend s st req Fetch Send
        = .done (some (.fetch .SkipFetchError)) [.Fetch (s.DiscoveryRequestToV3 req)]) ∧
    (∀ (s : server2.Server2) (typeUrl : String) (st : server2.State)
        (Fetch : DiscoveryRequest → Except FetchError DiscoveryResponse)
        (Send : xdspb2.DiscoveryResponse → Option String),
      Fetch { VersionInfo := st.versionInfo typeUrl, Node := none, ResourceNames := [],
              TypeUrl := typeUrl, ResponseNonce := "" } = .error .SkipFetchError →
      server2.tickRound s typeUrl Fetch Send st
        = .done (some (.fetch .SkipFetchError))
            [.Fetch { VersionInfo := st.versionInfo typeUrl, Node := none, ResourceNames := [],
                      TypeUrl := typeUrl, ResponseNonce := "" }]) ∧
    server2.discoveryProcess sampleServer2 sampleURLs.ClusterType sampleSkipEvents
      = { trace :=
            [.Fetch { VersionInfo := "", Node := some { Id := "" }, ResourceNames := [],
                      TypeUrl := sampleURLs.ClusterType, ResponseNonce := "" },
             .Send { VersionInfo := "2",
                     Resources := [{ TypeUrl := sampleURLs.ClusterType, Value := [97] },
                                   { TypeUrl := sampleURLs.ClusterType, Value := [98] }],
                     TypeUrl := sampleURLs.ClusterType, Nonce := "1" },
             .Fetch { VersionInfo := "2", Node := none, ResourceNames := [],
                      TypeUrl := sampleURLs.ClusterType, ResponseNonce := "" }],
          returned := some (some (.fetch .SkipFetchError)) } := by
  refine ⟨fun s st req Fetch Send h => ?_, fun s typeUrl st Fetch Send h => ?_, by decide⟩
  · simp [server2.fetchAndSend, h]
  · simp [server2.tickRound, h]

/-! ## Load reports -/

/-- C16 (the code at the failing input): of two load reports received on one
stream, with `SetLoad` and `Send` succeeding, `loadProcess` passes the first to
`SetLoad`, sends the answer and returns; no run of `loadProcess` passes more than
one report to `SetLoad`. -/
theorem loadProcess_first_report_only :
    load.loadProcess
        [.report (some (some (sampleReport ["a"]))) sampleSetLoad none,
         .report (some (some (sampleReport ["b"]))) sampleSetLoad none]
      = { trace := [.SetLoad (sampleReport ["a"]), .Send { Node := none, ClusterStats := [] }],
          returned := some none } ∧
    ∀ events, (load.reported (load.loadProcess events).trace).length ≤ 1 := by
  refine ⟨by decide, fun events => ?_⟩
  cases events with
  | nil => simp [load.loadProcess, load.loadLoop, load.reported]
  | cons ev rest =>
    cases ev with
    | ctxDone => simp [load.loadProcess, load.loadLoop, load.loadStep, load.reported]
    | report msg SetLoad sendErr =>
      rcases msg with _ | _ | req
      · simp [load.loadProcess, load.loadLoop, load.loadStep, load.reported]
      · simp [load.loadProcess, load.loadLoop, load.loadStep, load.reported]
      · cases h : SetLoad req <;>
          simp [load.loadProcess, load.loadLoop, load.loadStep, load.reported, h]

end Xds
